import Mathlib

/-
Verification development for the shess_server repository.

The Python sources (board_state.py, game_manager.py, main.py,
websocket_manager.py, config.py) are shallowly embedded below:

  * Python dicts are embedded as insertion-ordered association lists
    (namespace Dict).  Assignment to an existing key updates the value in
    place (keeping the insertion position), assignment to a fresh key
    appends at the end, and deletion removes the binding — exactly the
    observable semantics of a CPython dict whose keys are unique.
  * The 8x8 board (a Python list of lists) is embedded as a
    List (List (Option Piece)); in-range assignment is listSet.  The
    coordinate keys of _coord_to_piece_map, built in the source with the
    f-string "row_col" (which is injective on integer pairs), are embedded
    directly as the pair (row, col).
  * Python object mutation is made explicit: every mutation of a Piece or
    a BoardState produces the updated value, and the auxiliary indexes are
    updated wherever the source relies on shared mutable references.
  * game_log entries are built in the source by pairwise-distinct f-string
    formats that are injective in their parameters; they are embedded as a
    structured inductive type (LogEntry) with one constructor per append
    site, and LogEntry.is_error tells whether the corresponding text
    carries the "Error:" tag that main.py tests for.
  * Wall-clock readings (time.time()) and freshly generated UUIDs are
    passed in as explicit arguments.
  * Exceptions are embedded as explicit result constructors (Except / a
    dedicated result inductive); a function that cannot raise is total.
-/

/-! ## Insertion-ordered dictionaries (CPython dict semantics) -/

def Dict.get {K V : Type} [DecidableEq K] : List (K × V) → K → Option V
  | [], _ => none
  | (k1, v1) :: t, k => if k = k1 then some v1 else Dict.get t k

def Dict.setA {K V : Type} [DecidableEq K] : List (K × V) → K → V → List (K × V)
  | [], k, v => [(k, v)]
  | (k1, v1) :: t, k, v => if k = k1 then (k, v) :: t else (k1, v1) :: Dict.setA t k v

def Dict.erase {K V : Type} [DecidableEq K] : List (K × V) → K → List (K × V)
  | [], _ => []
  | (k1, v1) :: t, k => if k = k1 then t else (k1, v1) :: Dict.erase t k

def Dict.values {K V : Type} (m : List (K × V)) : List V := m.map Prod.snd

def Dict.NodupKeys {K V : Type} (m : List (K × V)) : Prop := (m.map Prod.fst).Nodup

instance {K V : Type} [DecidableEq K] (m : List (K × V)) : Decidable (Dict.NodupKeys m) := by
  unfold Dict.NodupKeys; infer_instance

/-! ## The 8x8 board (Python list of lists) -/

def listSet {α : Type} : List α → Nat → α → List α
  | [], _, _ => []
  | _ :: t, 0, v => v :: t
  | h :: t, n + 1, v => h :: listSet t n v

/-! ## GameStatus (board_state.py, class GameStatus) -/

inductive GameStatus where
  | waiting
  | in_progress
  | finished
  | resigned
  | draw
  | check
  | checkmate
  | stalemate
  deriving DecidableEq

/-- The string value of each GameStatus member, as in the Python Enum. -/
def GameStatus.value : GameStatus → String
  | .waiting => "waiting"
  | .in_progress => "in_progress"
  | .finished => "finished"
  | .resigned => "resigned"
  | .draw => "draw"
  | .check => "check"
  | .checkmate => "checkmate"
  | .stalemate => "stalemate"

/-- The Python call GameStatus(s): looks a string up among the member values;
an unknown string raises ValueError, embedded as none. -/
def GameStatus.ofValue (s : String) : Option GameStatus :=
  if s = "waiting" then some .waiting
  else if s = "in_progress" then some .in_progress
  else if s = "finished" then some .finished
  else if s = "resigned" then some .resigned
  else if s = "draw" then some .draw
  else if s = "check" then some .check
  else if s = "checkmate" then some .checkmate
  else if s = "stalemate" then some .stalemate
  else none

/-! ## Piece (board_state.py, class Piece) -/

structure Piece where
  figure_id : String
  name : String
  color : String
  row : Int
  col : Int
  is_first_move : Bool := true
  description : String := ""
  copied_figure : Option String := none
  unavailable_copy : List String := []
  mode : Int := 1
  hero : Option String := none
  death : Int := 0
  aura : Int := 0
  condition : Int := 0
  move_creation : Int := 0
  walk_count : Int := 0
  deriving DecidableEq

/-! ## Log entries

game_log entries are appended in board_state.py (six distinct error
f-strings, the capture message and the success message) and in
game_manager.py (the resignation message).  The formats are pairwise
distinct and injective in their parameters, so they are embedded as one
constructor per append site. -/

inductive LogEntry where
  | piece_not_found (figure_id : String)
  | not_registered (player_id : String)
  | out_of_turn (current_player tried_color : String)
  | wrong_color_piece (player_color piece_color : String)
  | invalid_coords (new_row new_col : Int) (figure_id : String)
  | occupied_by_own (new_row new_col : Int) (target_name target_figure_id : String)
  | capture (figure_id name color target_figure_id target_name target_color : String)
      (new_row new_col : Int)
  | success_move (name color : String) (old_row old_col new_row new_col : Int)
      (new_current_player : String)
  | player_resigned (player_id : String)
  deriving DecidableEq

/-- Whether the rendered text of the entry starts with the "Error:" tag
(main.py detects rejections by testing for that substring). -/
def LogEntry.is_error : LogEntry → Bool
  | .piece_not_found _ => true
  | .not_registered _ => true
  | .out_of_turn _ _ => true
  | .wrong_color_piece _ _ => true
  | .invalid_coords _ _ _ => true
  | .occupied_by_own _ _ _ _ => true
  | .capture _ _ _ _ _ _ _ _ => false
  | .success_move _ _ _ _ _ _ _ => false
  | .player_resigned _ => false

/-- One moves_log entry: the f-string
"{current_player} {piece.name} from (r,c) to (r,c)" embedded structurally. -/
structure MoveLogEntry where
  player : String
  piece_name : String
  old_row : Int
  old_col : Int
  new_row : Int
  new_col : Int
  deriving DecidableEq

/-! ## The grid -/

abbrev Grid : Type := List (List (Option Piece))

/-- Reading board[r][c] for in-range Nat indices (used only to state the
grid/index consistency invariant; board_state.py itself never reads the
2D array in the flows under verification, it only writes it). -/
def gridGet (g : Grid) (r c : Nat) : Option Piece := (g.getD r []).getD c none

/-- The assignment board[r][c] = v.  In every execution reached by the
verified flows the indices are within 0..7 (validated coordinates or
coordinates of an indexed piece), where listSet coincides with the Python
assignment; out-of-range indices never occur there. -/
def gridSet (g : Grid) (r c : Int) (v : Option Piece) : Grid :=
  listSet g r.toNat (listSet (g.getD r.toNat []) c.toNat v)

/-- The board built in BoardState.__init__: an 8x8 array of None. -/
def emptyGrid : Grid := List.replicate 8 (List.replicate 8 (none : Option Piece))

def WellShaped (g : Grid) : Prop := g.length = 8 ∧ ∀ row ∈ g, row.length = 8

/-! ## BoardState (board_state.py, class BoardState)

The players dict always carries exactly the keys "white" and "black"
(initial_data["players"] from config.INITIAL_GAME_STATE, or the serialized
players dict), so it is embedded as the two optional fields players_white
and players_black. -/

structure BoardState where
  board_size : Int
  current_player : String
  white_hand : List String
  black_hand : List String
  white_double_add : Int
  black_double_add : Int
  game_log : List LogEntry
  moves_log : List MoveLogEntry
  cards_count : Int
  game_status : GameStatus
  day_night_cycle : String
  turn_number : Int
  players_white : Option String
  players_black : Option String
  last_move_at : Option Int
  board : Grid
  fid_map : List (String × Piece)
  coord_map : List ((Int × Int) × Piece)
  deriving DecidableEq

/-- The initial_data dict consumed by BoardState.__init__ (the keys that
__init__ reads, with their Python defaults; board_pieces entries are the
already-validated Piece payloads).  to_json_serializable additionally
emits board_size, which __init__ ignores (it always sets 8). -/
structure InitialData where
  current_player : String := "white"
  white_hand : List String := []
  black_hand : List String := []
  white_double_add : Int := 0
  black_double_add : Int := 0
  game_log : List LogEntry := []
  moves_log : List MoveLogEntry := []
  cards_count : Int := 0
  game_status : String := "waiting"
  day_night_cycle : String := "day"
  turn_number : Int := 0
  players_white : Option String := none
  players_black : Option String := none
  last_move_at : Option Int := none
  board_pieces : List Piece := []
  deriving DecidableEq

/-- The piece loop of BoardState.__init__: for each piece (in list order)
write it into the 2D board and into both index dicts. -/
def initPiecesLoop (g : Grid) (fm : List (String × Piece))
    (cm : List ((Int × Int) × Piece)) :
    List Piece → Grid × List (String × Piece) × List ((Int × Int) × Piece)
  | [] => (g, fm, cm)
  | p :: rest =>
      initPiecesLoop (gridSet g p.row p.col (some p)) (Dict.setA fm p.figure_id p)
        (Dict.setA cm (p.row, p.col) p) rest

/-- BoardState.__init__.  The GameStatus(...) call raises ValueError on an
unknown status string; that is the none case. -/
def BoardState.ofInitialData (d : InitialData) : Option BoardState :=
  match GameStatus.ofValue d.game_status with
  | none => none
  | some st =>
      let built := initPiecesLoop emptyGrid [] [] d.board_pieces
      some
        { board_size := 8
          current_player := d.current_player
          white_hand := d.white_hand
          black_hand := d.black_hand
          white_double_add := d.white_double_add
          black_double_add := d.black_double_add
          game_log := d.game_log
          moves_log := d.moves_log
          cards_count := d.cards_count
          game_status := st
          day_night_cycle := d.day_night_cycle
          turn_number := d.turn_number
          players_white := d.players_white
          players_black := d.players_black
          last_move_at := d.last_move_at
          board := built.1
          fid_map := built.2.1
          coord_map := built.2.2 }

/-- BoardState._remove_piece_from_board: clear the grid cell and delete the
two index entries (the source guards the dict deletions with an "in" test,
so a missing key is a no-op, as Dict.erase is). -/
def BoardState.removePieceFromBoard (b : BoardState) (piece : Piece) : BoardState :=
  { b with
    board := gridSet b.board piece.row piece.col none
    coord_map := Dict.erase b.coord_map (piece.row, piece.col)
    fid_map := Dict.erase b.fid_map piece.figure_id }

/-- Colour resolution at the top of move_piece:
str(player_making_move_id) == self.players.get('white') / .get('black'). -/
def BoardState.resolvePlayerColor (b : BoardState) (pid : String) : Option String :=
  if b.players_white = some pid then some "white"
  else if b.players_black = some pid then some "black"
  else none

/-- Lines 276-308 of board_state.py (the shared tail of move_piece once all
checks passed and any capture was handled): clear the old cell and index
entry, mutate the piece (position, first-move flag, walk counter) — the
mutation is visible through _figure_id_to_piece_map, hence the Dict.setA on
fid_map — re-index by the new coordinate, write the new cell, append the
moves_log record, flip current_player, bump turn_number, stamp
last_move_at, append the success game_log entry. -/
def BoardState.applyMoveCore (b : BoardState) (piece : Piece) (new_row new_col : Int)
    (now : Int) : BoardState :=
  let old_row := piece.row
  let old_col := piece.col
  let piece' := { piece with
    row := new_row, col := new_col, is_first_move := false,
    walk_count := piece.walk_count + 1 }
  let next_player := if b.current_player = "white" then "black" else "white"
  { b with
    board := gridSet (gridSet b.board old_row old_col none) new_row new_col (some piece')
    coord_map := Dict.setA (Dict.erase b.coord_map (old_row, old_col)) (new_row, new_col) piece'
    fid_map := Dict.setA b.fid_map piece.figure_id piece'
    moves_log := b.moves_log ++
      [{ player := b.current_player, piece_name := piece.name, old_row := old_row,
         old_col := old_col, new_row := new_row, new_col := new_col }]
    current_player := next_player
    turn_number := b.turn_number + 1
    last_move_at := some now
    game_log := b.game_log ++
      [LogEntry.success_move piece.name piece.color old_row old_col new_row new_col next_player] }

/-- BoardState.move_piece (board_state.py lines 206-308).  The Python method
never raises: every rejection only appends a log entry and returns self.
now is the time.time() reading taken on a successful move. -/
def BoardState.move_piece (b : BoardState) (figure_id : String) (new_row new_col : Int)
    (player_making_move_id : String) (now : Int) : BoardState :=
  match Dict.get b.fid_map figure_id with
  | none => { b with game_log := b.game_log ++ [LogEntry.piece_not_found figure_id] }
  | some piece =>
    match b.resolvePlayerColor player_making_move_id with
    | none =>
        { b with game_log := b.game_log ++ [LogEntry.not_registered player_making_move_id] }
    | some actual_player_color =>
      if actual_player_color ≠ b.current_player then
        { b with game_log := b.game_log ++
            [LogEntry.out_of_turn b.current_player actual_player_color] }
      else if piece.color ≠ actual_player_color then
        { b with game_log := b.game_log ++
            [LogEntry.wrong_color_piece actual_player_color piece.color] }
      else if ¬ (0 ≤ new_row ∧ new_row < b.board_size ∧ 0 ≤ new_col ∧ new_col < b.board_size) then
        { b with game_log := b.game_log ++
            [LogEntry.invalid_coords new_row new_col piece.figure_id] }
      else
        match Dict.get b.coord_map (new_row, new_col) with
        | some target_piece =>
          if target_piece.color ≠ piece.color then
            let b1 := b.removePieceFromBoard target_piece
            let b2 := { b1 with game_log := b1.game_log ++
              [LogEntry.capture piece.figure_id piece.name piece.color
                target_piece.figure_id target_piece.name target_piece.color new_row new_col] }
            b2.applyMoveCore piece new_row new_col now
          else
            { b with game_log := b.game_log ++
                [LogEntry.occupied_by_own new_row new_col target_piece.name
                  target_piece.figure_id] }
        | none => b.applyMoveCore piece new_row new_col now

/-- The dict returned by BoardState.to_json_serializable, with its exact
field set; board_pieces is the values() view of _figure_id_to_piece_map in
insertion order. -/
structure SerializedBoard where
  board_size : Int
  board_pieces : List Piece
  current_player : String
  white_hand : List String
  black_hand : List String
  white_double_add : Int
  black_double_add : Int
  game_log : List LogEntry
  moves_log : List MoveLogEntry
  cards_count : Int
  game_status : String
  day_night_cycle : String
  turn_number : Int
  players_white : Option String
  players_black : Option String
  last_move_at : Option Int
  deriving DecidableEq

def BoardState.to_json_serializable (b : BoardState) : SerializedBoard :=
  { board_size := b.board_size
    board_pieces := Dict.values b.fid_map
    current_player := b.current_player
    white_hand := b.white_hand
    black_hand := b.black_hand
    white_double_add := b.white_double_add
    black_double_add := b.black_double_add
    game_log := b.game_log
    moves_log := b.moves_log
    cards_count := b.cards_count
    game_status := b.game_status.value
    day_night_cycle := b.day_night_cycle
    turn_number := b.turn_number
    players_white := b.players_white
    players_black := b.players_black
    last_move_at := b.last_move_at }

/-- Feeding a serialized snapshot back into BoardState.__init__ as its
initial_data dict: every key is taken verbatim; the extra board_size key
is ignored by __init__. -/
def SerializedBoard.toInitialData (s : SerializedBoard) : InitialData :=
  { current_player := s.current_player
    white_hand := s.white_hand
    black_hand := s.black_hand
    white_double_add := s.white_double_add
    black_double_add := s.black_double_add
    game_log := s.game_log
    moves_log := s.moves_log
    cards_count := s.cards_count
    game_status := s.game_status
    day_night_cycle := s.day_night_cycle
    turn_number := s.turn_number
    players_white := s.players_white
    players_black := s.players_black
    last_move_at := s.last_move_at
    board_pieces := s.board_pieces }

/-- Modelled from the spec (claim C2): the six validation checks of
applyMove in the specified order — piece exists, acting player resolves to
a bound colour, resolved colour is the current player, piece has that
colour, target within 0..7 on both axes, target cell not occupied by an
own-colour piece — each a terminal early-exit producing its own error
entry; none when all six pass. -/
def firstValidationError (b : BoardState) (figure_id : String) (new_row new_col : Int)
    (pid : String) : Option LogEntry :=
  match Dict.get b.fid_map figure_id with
  | none => some (LogEntry.piece_not_found figure_id)
  | some piece =>
    match b.resolvePlayerColor pid with
    | none => some (LogEntry.not_registered pid)
    | some color =>
      if color ≠ b.current_player then
        some (LogEntry.out_of_turn b.current_player color)
      else if piece.color ≠ color then
        some (LogEntry.wrong_color_piece color piece.color)
      else if ¬ (0 ≤ new_row ∧ new_row < 8 ∧ 0 ≤ new_col ∧ new_col < 8) then
        some (LogEntry.invalid_coords new_row new_col piece.figure_id)
      else
        match Dict.get b.coord_map (new_row, new_col) with
        | some target =>
            if target.color = piece.color then
              some (LogEntry.occupied_by_own new_row new_col target.name target.figure_id)
            else none
        | none => none

/-! ## Grid/index consistency (the invariant of claim C4) -/

/-- Consistency of a BoardState: the two auxiliary indexes have unique
keys, every coordinate-index entry records its own in-range key, every
id-index entry records its own key, the two indexes carry the same
pieces, and each grid cell agrees with the coordinate index. -/
structure Wf (b : BoardState) : Prop where
  size : b.board_size = 8
  shape : WellShaped b.board
  nodup_fid : Dict.NodupKeys b.fid_map
  nodup_coord : Dict.NodupKeys b.coord_map
  coord_pos : ∀ r c p, Dict.get b.coord_map (r, c) = some p →
      p.row = r ∧ p.col = c ∧ 0 ≤ r ∧ r < 8 ∧ 0 ≤ c ∧ c < 8
  fid_id : ∀ i p, Dict.get b.fid_map i = some p → p.figure_id = i
  fid_coord : ∀ i p, Dict.get b.fid_map i = some p →
      Dict.get b.coord_map (p.row, p.col) = some p
  coord_fid : ∀ r c p, Dict.get b.coord_map (r, c) = some p →
      Dict.get b.fid_map p.figure_id = some p
  grid_coord : ∀ (r c : Nat), r < 8 → c < 8 →
      gridGet b.board r c = Dict.get b.coord_map ((r : Int), (c : Int))

/-- Executable consistency check, used to certify concrete states. -/
def WfB (b : BoardState) : Bool :=
  b.board_size = 8 &&
  b.board.length = 8 &&
  b.board.all (fun row => row.length = 8) &&
  decide (Dict.NodupKeys b.fid_map) &&
  decide (Dict.NodupKeys b.coord_map) &&
  b.coord_map.all (fun kv =>
    kv.2.row = kv.1.1 && kv.2.col = kv.1.2 &&
    decide (0 ≤ kv.1.1) && decide (kv.1.1 < 8) && decide (0 ≤ kv.1.2) && decide (kv.1.2 < 8)) &&
  b.fid_map.all (fun kv => kv.2.figure_id = kv.1) &&
  b.fid_map.all (fun kv => Dict.get b.coord_map (kv.2.row, kv.2.col) = some kv.2) &&
  b.coord_map.all (fun kv => Dict.get b.fid_map kv.2.figure_id = some kv.2) &&
  (List.range 8).all (fun r => (List.range 8).all (fun c =>
    gridGet b.board r c = Dict.get b.coord_map ((r : Int), (c : Int))))

/-- Wellformedness of initial data: its pieces carry pairwise-distinct ids,
pairwise-distinct coordinates, and in-range coordinates.  This holds for
config.INITIAL_GAME_STATE and for every serialized consistent state. -/
def InitWf (d : InitialData) : Prop :=
  (d.board_pieces.map fun p => p.figure_id).Nodup ∧
  (d.board_pieces.map fun p => ((p.row, p.col) : Int × Int)).Nodup ∧
  ∀ p ∈ d.board_pieces, 0 ≤ p.row ∧ p.row < 8 ∧ 0 ≤ p.col ∧ p.col < 8

/-! ## Rooms and the room store (game_manager.py)

The Redis key-value store is embedded as an insertion-ordered dictionary
from key strings to room records.  game_manager.py stores the JSON
serialization of a room and re-parses it on get; the codec is the identity
on the record content, so the store holds the records themselves here.
Freshly generated UUIDs (room id, player ids) and int(time.time()) stamps
are explicit arguments. -/

structure GameRoomInfo where
  id : String
  name : String
  player1_id : Option String
  player2_id : Option String
  status : GameStatus
  board_state : BoardState
  created_at : Int
  updated_at : Int
  deriving DecidableEq

abbrev RoomStore : Type := List (String × GameRoomInfo)

/-- The Redis key f-string "room:{room_id}" (GameManager.ROOM_PREFIX). -/
def roomKey (room_id : String) : String := "room:" ++ room_id

/-- The initial_data dict built by GameManager.create_room: a deep copy of
config.INITIAL_GAME_STATE with players["white"] set to the creator.  The
piece list carries the UUIDs generated at config-import time, passed here
as the pieces argument. -/
def initial_game_state (pieces : List Piece) (player1_id : String) : InitialData :=
  { current_player := "white"
    white_hand := []
    black_hand := []
    white_double_add := 0
    black_double_add := 0
    game_log := []
    moves_log := []
    cards_count := 0
    game_status := "waiting"
    day_night_cycle := "day"
    turn_number := 0
    players_white := some player1_id
    players_black := none
    last_move_at := none
    board_pieces := pieces }

/-- GameManager.create_room: build the BoardState from the initial layout,
bind white to the creator, build the room record (status defaults to
GameStatus.WAITING, id freshly generated), persist under its key. -/
def GameManager.create_room (store : RoomStore) (room_name : String) (player1_id : String)
    (room_id : String) (pieces : List Piece) (now : Int) :
    Option (GameRoomInfo × RoomStore) :=
  (BoardState.ofInitialData (initial_game_state pieces player1_id)).map fun bs =>
    let room : GameRoomInfo :=
      { id := room_id, name := room_name, player1_id := some player1_id,
        player2_id := none, status := GameStatus.waiting, board_state := bs,
        created_at := now, updated_at := now }
    (room, Dict.setA store (roomKey room.id) room)

inductive JoinResult where
  | notFound
  | alreadyFull
  | duplicatePlayer
  | joined (room : GameRoomInfo)
  deriving DecidableEq

/-- GameManager.join_room.  notFound embeds the None return; alreadyFull
embeds raise ValueError("Room is already full."); duplicatePlayer embeds
raise ValueError("Player is already player1 in this room.").  Both raises
happen before any mutation or store write, so the store is returned
unchanged in every non-joined case. -/
def GameManager.join_room (store : RoomStore) (room_id : String) (player2_id : String)
    (now : Int) : JoinResult × RoomStore :=
  match Dict.get store (roomKey room_id) with
  | none => (JoinResult.notFound, store)
  | some room =>
    if room.player2_id ≠ none then (JoinResult.alreadyFull, store)
    else if room.player1_id = some player2_id then (JoinResult.duplicatePlayer, store)
    else
      let room' : GameRoomInfo :=
        { room with
          player2_id := some player2_id
          status := GameStatus.in_progress
          updated_at := now
          board_state := { room.board_state with players_black := some player2_id } }
      (JoinResult.joined room', Dict.setA store (roomKey room.id) room')

/-- GameManager.update_room_state: re-read the room, swap in the given
BoardState, stamp updated_at, persist. -/
def GameManager.update_room_state (store : RoomStore) (room_id : String)
    (updated_board_state_obj : BoardState) (now : Int) :
    Option GameRoomInfo × RoomStore :=
  match Dict.get store (roomKey room_id) with
  | none => (none, store)
  | some room =>
    let room' : GameRoomInfo :=
      { room with board_state := updated_board_state_obj, updated_at := now }
    (some room', Dict.setA store (roomKey room.id) room')

inductive SurrenderResult where
  | notFound
  | notParticipant
  | done (room : GameRoomInfo)
  deriving DecidableEq

/-- Python str() of an optional id: str(None) is "None", otherwise the id
itself (the surrender check compares str(player_id) with
str(room.player1_id) / str(room.player2_id)). -/
def optStr (o : Option String) : String :=
  match o with
  | none => "None"
  | some s => s

/-- GameManager.surrender_room: participant check, then set both the room
status and the board status to RESIGNED, append the resignation log line,
stamp updated_at, persist.  notParticipant embeds
raise ValueError("Player is not a participant of this room."). -/
def GameManager.surrender_room (store : RoomStore) (room_id : String) (player_id : String)
    (now : Int) : SurrenderResult × RoomStore :=
  match Dict.get store (roomKey room_id) with
  | none => (SurrenderResult.notFound, store)
  | some room =>
    if player_id ≠ optStr room.player1_id ∧ player_id ≠ optStr room.player2_id then
      (SurrenderResult.notParticipant, store)
    else
      let room' : GameRoomInfo :=
        { room with
          status := GameStatus.resigned
          board_state := { room.board_state with
            game_status := GameStatus.resigned
            game_log := room.board_state.game_log ++ [LogEntry.player_resigned player_id] }
          updated_at := now }
      (SurrenderResult.done room', Dict.setA store (roomKey room.id) room')

/-! ## The per-connection session loop (main.py, websocket_endpoint)

One loop iteration processes one inbound frame.  The connection-local
Python variable player_making_move_id (bound only when a move frame passes
field validation and its player_id parses as a UUID, and surviving between
iterations in locals()) is the binding field.  The uuid.UUID parser is an
external collaborator, passed in as the isUUID predicate. -/

inductive Frame where
  | move (figure_id : Option String) (new_row new_col : Option Int) (player_id : Option String)
  | chat_message (message : Option String)
  | unknown
  deriving DecidableEq

inductive OutMsg where
  | errorSent
  | statePublished (state : SerializedBoard)
  | chatPublished (sender message : String)
  deriving DecidableEq

structure SessionState where
  binding : Option String
  store : RoomStore
  room_id : String
  deriving DecidableEq

/-- The last game_log entry test of main.py:
"Error:" in (game_log[-1] if game_log else ""). -/
def lastEntryIsError (l : List LogEntry) : Bool :=
  match l.getLast? with
  | some e => e.is_error
  | none => false

/-- One iteration of the websocket_endpoint frame loop.  Python truthiness
of the payload fields: a missing or empty figure_id/player_id string is
falsy; new_row/new_col are only tested for not-None.  A move frame that
passes validation binds player_making_move_id before the room is loaded,
so the binding survives even when the room has vanished or the board
rejects the move. -/
def sessionStep (isUUID : String → Bool) (now : Int) (st : SessionState) (f : Frame) :
    SessionState × List OutMsg :=
  match f with
  | Frame.move (some figure_id) (some new_row) (some new_col) (some player_id_str) =>
    if figure_id = "" ∨ player_id_str = "" then (st, [OutMsg.errorSent])
    else if ¬ isUUID player_id_str then (st, [OutMsg.errorSent])
    else
      match Dict.get st.store (roomKey st.room_id) with
      | none => ({ st with binding := some player_id_str }, [OutMsg.errorSent])
      | some room =>
        if lastEntryIsError (room.board_state.move_piece figure_id new_row new_col
            player_id_str now).game_log then
          ({ st with
              binding := some player_id_str
              store := (GameManager.update_room_state st.store st.room_id
                (room.board_state.move_piece figure_id new_row new_col player_id_str now)
                now).2 },
           [OutMsg.statePublished (room.board_state.move_piece figure_id new_row new_col
              player_id_str now).to_json_serializable, OutMsg.errorSent])
        else
          ({ st with
              binding := some player_id_str
              store := (GameManager.update_room_state st.store st.room_id
                (room.board_state.move_piece figure_id new_row new_col player_id_str now)
                now).2 },
           [OutMsg.statePublished (room.board_state.move_piece figure_id new_row new_col
              player_id_str now).to_json_serializable])
  | Frame.move _ _ _ _ => (st, [OutMsg.errorSent])
  | Frame.chat_message (some message_text) =>
    if message_text = "" then (st, [OutMsg.errorSent])
    else
      let sender_id := match st.binding with
        | some p => p
        | none => "Anonymous"
      (st, [OutMsg.chatPublished sender_id message_text])
  | Frame.chat_message none => (st, [OutMsg.errorSent])
  | Frame.unknown => (st, [OutMsg.errorSent])

/-- The player id a frame binds into player_making_move_id: some pid iff
the frame is a move frame passing the field-presence check and the UUID
parse (a well-formed move frame). -/
def wfMovePid (isUUID : String → Bool) : Frame → Option String
  | Frame.move (some figure_id) (some _) (some _) (some player_id_str) =>
      if figure_id = "" ∨ player_id_str = "" then none
      else if isUUID player_id_str then some player_id_str else none
  | _ => none

/-- Processing a list of inbound frames in arrival order, concatenating
the outbound/published messages. -/
def sessionRun (isUUID : String → Bool) (now : Int) :
    SessionState → List Frame → SessionState × List OutMsg
  | st, [] => (st, [])
  | st, f :: rest =>
    let step := sessionStep isUUID now st f
    let run := sessionRun isUUID now step.1 rest
    (run.1, step.2 ++ run.2)

/-! ## The connection registry (websocket_manager.py)

The module-level active_connections dict maps a room id to the set of live
connections, embedded as a list of connection identifiers (set membership
is all the verified operations observe).  The Pub/Sub listener tasks are
not part of the registry state.  send failures during broadcast are an
external condition, passed in as the sendFails predicate. -/

abbrev Registry : Type := List (String × List String)

/-- WebSocketManager.disconnect.  The Except.error case embeds the KeyError
that set.remove raises when the websocket is not in the room's set; only a
completely unregistered room id takes the graceful else-branch. -/
def WebSocketManager.disconnect (reg : Registry) (websocket room_id : String) :
    Except String Registry :=
  match Dict.get reg room_id with
  | some conns =>
      if websocket ∈ conns then
        let conns' := conns.erase websocket
        if conns' = [] then Except.ok (Dict.erase reg room_id)
        else Except.ok (Dict.setA reg room_id conns')
      else Except.error "KeyError"
  | none => Except.ok reg

/-- WebSocketManager.broadcast: every connection whose send fails is
removed from the room's set; the dict entry itself is never deleted (the
empty-set branch only cancels the Pub/Sub listener task). -/
def WebSocketManager.broadcast (reg : Registry) (room_id : String)
    (sendFails : String → Bool) : Registry :=
  match Dict.get reg room_id with
  | none => reg
  | some conns => Dict.setA reg room_id (conns.filter fun c => ¬ sendFails c)

/-! ## Concrete states used to instantiate the theorems -/

def wRook : Piece := { figure_id := "w1", name := "Rook", color := "white", row := 7, col := 0 }

def bRook : Piece := { figure_id := "b1", name := "Rook", color := "black", row := 0, col := 0 }

def testBoard : BoardState :=
  { board_size := 8
    current_player := "white"
    white_hand := []
    black_hand := []
    white_double_add := 0
    black_double_add := 0
    game_log := []
    moves_log := []
    cards_count := 0
    game_status := GameStatus.in_progress
    day_night_cycle := "day"
    turn_number := 0
    players_white := some "p1"
    players_black := some "p2"
    last_move_at := none
    board := (initPiecesLoop emptyGrid [] [] [wRook, bRook]).1
    fid_map := [("w1", wRook), ("b1", bRook)]
    coord_map := [((7, 0), wRook), ((0, 0), bRook)] }

/-! ## Claim theorems -/

def roomFull : GameRoomInfo :=
  { id := "r1", name := "Alpha", player1_id := some "pA", player2_id := some "pB",
    status := GameStatus.in_progress, board_state := testBoard,
    created_at := 0, updated_at := 0 }

/-- A piece entry of config.INITIAL_BOARD_STATE_PIECES: only the id, name,
colour and coordinates vary; every other field is the Piece default. -/
def mkInitPiece (i n c : String) (r co : Int) : Piece :=
  { figure_id := i, name := n, color := c, row := r, col := co }

/-- config.INITIAL_BOARD_STATE_PIECES, with the (runtime-generated) UUIDs
replaced by distinct concrete labels. -/
def initialPiecesConcrete : List Piece :=
  [mkInitPiece "bR1" "Rook" "black" 0 0, mkInitPiece "bN1" "Knight" "black" 0 1,
   mkInitPiece "bB1" "Bishop" "black" 0 2, mkInitPiece "bQ1" "Queen" "black" 0 3,
   mkInitPiece "bK1" "King" "black" 0 4, mkInitPiece "bB2" "Bishop" "black" 0 5,
   mkInitPiece "bN2" "Knight" "black" 0 6, mkInitPiece "bR2" "Rook" "black" 0 7,
   mkInitPiece "bP1" "Pawn" "black" 1 0, mkInitPiece "bP2" "Pawn" "black" 1 1,
   mkInitPiece "bP3" "Pawn" "black" 1 2, mkInitPiece "bP4" "Pawn" "black" 1 3,
   mkInitPiece "bP5" "Pawn" "black" 1 4, mkInitPiece "bP6" "Pawn" "black" 1 5,
   mkInitPiece "bP7" "Pawn" "black" 1 6, mkInitPiece "bP8" "Pawn" "black" 1 7,
   mkInitPiece "wP1" "Pawn" "white" 6 0, mkInitPiece "wP2" "Pawn" "white" 6 1,
   mkInitPiece "wP3" "Pawn" "white" 6 2, mkInitPiece "wP4" "Pawn" "white" 6 3,
   mkInitPiece "wP5" "Pawn" "white" 6 4, mkInitPiece "wP6" "Pawn" "white" 6 5,
   mkInitPiece "wP7" "Pawn" "white" 6 6, mkInitPiece "wP8" "Pawn" "white" 6 7,
   mkInitPiece "wR1" "Rook" "white" 7 0, mkInitPiece "wN1" "Knight" "white" 7 1,
   mkInitPiece "wB1" "Bishop" "white" 7 2, mkInitPiece "wQ1" "Queen" "white" 7 3,
   mkInitPiece "wK1" "King" "white" 7 4, mkInitPiece "wB2" "Bishop" "white" 7 5,
   mkInitPiece "wN2" "Knight" "white" 7 6, mkInitPiece "wR2" "Rook" "white" 7 7]

/-! ## Theorems -/

theorem Dict.get_setA_self {K V : Type} [DecidableEq K] (m : List (K × V)) (k : K) (v : V) :
    Dict.get (Dict.setA m k v) k = some v := by
  induction m with
  | nil => simp [Dict.setA, Dict.get]
  | cons h t ih =>
    obtain ⟨k1, v1⟩ := h
    by_cases hk : k = k1 <;> simp [Dict.setA, Dict.get, hk, ih]

theorem Dict.get_setA_ne {K V : Type} [DecidableEq K] (m : List (K × V)) (k k' : K) (v : V)
    (h : k' ≠ k) : Dict.get (Dict.setA m k v) k' = Dict.get m k' := by
  induction m with
  | nil => simp [Dict.setA, Dict.get, h]
  | cons hd t ih =>
    obtain ⟨k1, v1⟩ := hd
    by_cases hk : k = k1
    · subst hk; simp [Dict.setA, Dict.get, h]
    · by_cases hk' : k' = k1 <;> simp [Dict.setA, Dict.get, hk, hk', ih]

theorem Dict.get_erase_ne {K V : Type} [DecidableEq K] (m : List (K × V)) (k k' : K)
    (h : k' ≠ k) : Dict.get (Dict.erase m k) k' = Dict.get m k' := by
  induction m with
  | nil => simp [Dict.erase]
  | cons hd t ih =>
    obtain ⟨k1, v1⟩ := hd
    by_cases hk : k = k1
    · subst hk; simp [Dict.erase, Dict.get, h]
    · by_cases hk' : k' = k1 <;> simp [Dict.erase, Dict.get, hk, hk', ih]

theorem Dict.mem_of_get {K V : Type} [DecidableEq K] (m : List (K × V)) (k : K) (v : V)
    (h : Dict.get m k = some v) : (k, v) ∈ m := by
  induction m with
  | nil => simp [Dict.get] at h
  | cons hd t ih =>
    obtain ⟨k1, v1⟩ := hd
    by_cases hk : k = k1
    · subst hk
      simp [Dict.get] at h
      simp [h]
    · simp [Dict.get, hk] at h
      exact List.mem_cons_of_mem _ (ih h)

theorem Dict.get_erase_self {K V : Type} [DecidableEq K] (m : List (K × V)) (k : K)
    (hnd : Dict.NodupKeys m) : Dict.get (Dict.erase m k) k = none := by
  induction m with
  | nil => simp [Dict.erase, Dict.get]
  | cons hd t ih =>
    obtain ⟨k1, v1⟩ := hd
    rw [Dict.NodupKeys, List.map_cons, List.nodup_cons] at hnd
    by_cases hk : k = k1
    · subst hk
      simp only [Dict.erase, if_pos rfl]
      cases hg : Dict.get t k with
      | none => exact hg
      | some v =>
        exact absurd (List.mem_map_of_mem Prod.fst (Dict.mem_of_get t k v hg)) hnd.1
    · simp [Dict.erase, Dict.get, hk, ih hnd.2]

theorem Dict.get_of_mem {K V : Type} [DecidableEq K] (m : List (K × V)) (k : K) (v : V)
    (hnd : Dict.NodupKeys m) (h : (k, v) ∈ m) : Dict.get m k = some v := by
  induction m with
  | nil => simp at h
  | cons hd t ih =>
    obtain ⟨k1, v1⟩ := hd
    rw [Dict.NodupKeys, List.map_cons, List.nodup_cons] at hnd
    rcases List.mem_cons.mp h with heq | hmem
    · obtain ⟨rfl, rfl⟩ := Prod.mk.injEq .. ▸ heq
      simp [Dict.get]
    · by_cases hk : k = k1
      · subst hk
        exact absurd (List.mem_map_of_mem Prod.fst hmem) hnd.1
      · simp [Dict.get, hk, ih hnd.2 hmem]

theorem Dict.mem_setA {K V : Type} [DecidableEq K] (m : List (K × V)) (k : K) (v : V)
    (x : K × V) (hx : x ∈ Dict.setA m k v) : x.1 = k ∨ x ∈ m := by
  induction m with
  | nil =>
    simp [Dict.setA] at hx
    left; rw [hx]
  | cons hd t ih =>
    obtain ⟨k1, v1⟩ := hd
    by_cases hk : k = k1
    · subst hk
      rw [Dict.setA, if_pos rfl] at hx
      rcases List.mem_cons.mp hx with h1 | h1
      · left; rw [h1]
      · right; exact List.mem_cons_of_mem _ h1
    · rw [Dict.setA, if_neg hk] at hx
      rcases List.mem_cons.mp hx with h1 | h1
      · right; rw [h1]; exact List.mem_cons_self _ _
      · rcases ih h1 with h2 | h2
        · left; exact h2
        · right; exact List.mem_cons_of_mem _ h2

theorem Dict.nodupKeys_setA {K V : Type} [DecidableEq K] (m : List (K × V)) (k : K) (v : V)
    (hnd : Dict.NodupKeys m) : Dict.NodupKeys (Dict.setA m k v) := by
  induction m with
  | nil => simp [Dict.setA, Dict.NodupKeys]
  | cons hd t ih =>
    obtain ⟨k1, v1⟩ := hd
    rw [Dict.NodupKeys, List.map_cons, List.nodup_cons] at hnd
    by_cases hk : k = k1
    · subst hk
      rw [Dict.setA, if_pos rfl, Dict.NodupKeys, List.map_cons, List.nodup_cons]
      exact hnd
    · rw [Dict.setA, if_neg hk, Dict.NodupKeys, List.map_cons, List.nodup_cons]
      refine ⟨fun hmem => ?_, ih hnd.2⟩
      rcases List.mem_map.mp hmem with ⟨x, hx, hx1⟩
      rcases Dict.mem_setA t k v x hx with h1 | h1
      · exact hk (by rw [← h1, hx1])
      · exact hnd.1 (hx1 ▸ List.mem_map_of_mem Prod.fst h1)

theorem Dict.erase_sublist {K V : Type} [DecidableEq K] (m : List (K × V)) (k : K) :
    (Dict.erase m k).Sublist m := by
  induction m with
  | nil => simp [Dict.erase]
  | cons hd t ih =>
    obtain ⟨k1, v1⟩ := hd
    by_cases hk : k = k1
    · rw [Dict.erase, if_pos hk]; exact List.sublist_cons_self _ _
    · rw [Dict.erase, if_neg hk]; exact List.Sublist.cons₂ _ ih

theorem Dict.nodupKeys_erase {K V : Type} [DecidableEq K] (m : List (K × V)) (k : K)
    (hnd : Dict.NodupKeys m) : Dict.NodupKeys (Dict.erase m k) :=
  List.Nodup.sublist (List.Sublist.map Prod.fst (Dict.erase_sublist m k)) hnd

theorem Dict.get_erase_some {K V : Type} [DecidableEq K] (m : List (K × V)) (k k' : K) (v : V)
    (hnd : Dict.NodupKeys m) (h : Dict.get (Dict.erase m k) k' = some v) :
    Dict.get m k' = some v := by
  by_cases hk : k' = k
  · subst hk; rw [Dict.get_erase_self m k' hnd] at h; exact absurd h (by simp)
  · rw [Dict.get_erase_ne m k k' hk] at h; exact h

theorem Dict.setA_of_get_none {K V : Type} [DecidableEq K] (m : List (K × V)) (k : K) (v : V)
    (h : Dict.get m k = none) : Dict.setA m k v = m ++ [(k, v)] := by
  induction m with
  | nil => simp [Dict.setA]
  | cons hd t ih =>
    obtain ⟨k1, v1⟩ := hd
    by_cases hk : k = k1
    · subst hk; simp [Dict.get] at h
    · simp [Dict.get, hk] at h
      simp [Dict.setA, hk, ih h]

theorem Dict.get_append {K V : Type} [DecidableEq K] (m m' : List (K × V)) (k : K) :
    Dict.get (m ++ m') k = match Dict.get m k with
      | some v => some v
      | none => Dict.get m' k := by
  induction m with
  | nil => simp [Dict.get]
  | cons hd t ih =>
    obtain ⟨k1, v1⟩ := hd
    by_cases hk : k = k1 <;> simp [Dict.get, hk, ih]

theorem listSet_length {α : Type} (l : List α) (n : Nat) (v : α) :
    (listSet l n v).length = l.length := by
  induction l generalizing n with
  | nil => simp [listSet]
  | cons h t ih =>
    cases n with
    | zero => simp [listSet]
    | succ m => simp [listSet, ih]

theorem getD_listSet_self {α : Type} (l : List α) (n : Nat) (v d : α) (h : n < l.length) :
    (listSet l n v).getD n d = v := by
  induction l generalizing n with
  | nil => simp at h
  | cons hd t ih =>
    cases n with
    | zero => simp [listSet]
    | succ m =>
      simp only [List.length_cons, Nat.succ_lt_succ_iff] at h
      simpa [listSet] using ih m h

theorem getD_listSet_ne {α : Type} (l : List α) (n m : Nat) (v d : α) (h : m ≠ n) :
    (listSet l n v).getD m d = l.getD m d := by
  induction l generalizing n m with
  | nil => simp [listSet]
  | cons hd t ih =>
    cases n with
    | zero =>
      cases m with
      | zero => exact absurd rfl h
      | succ m2 => simp [listSet]
    | succ n2 =>
      cases m with
      | zero => simp [listSet]
      | succ m2 => simpa [listSet] using ih n2 m2 (fun he => h (by rw [he]))

theorem mem_listSet {α : Type} (l : List α) (n : Nat) (v x : α) (hx : x ∈ listSet l n v) :
    x ∈ l ∨ x = v := by
  induction l generalizing n with
  | nil => simp [listSet] at hx
  | cons hd t ih =>
    cases n with
    | zero =>
      rcases List.mem_cons.mp hx with h1 | h1
      · right; exact h1
      · left; exact List.mem_cons_of_mem _ h1
    | succ m =>
      rcases List.mem_cons.mp hx with h1 | h1
      · left; rw [h1]; exact List.mem_cons_self _ _
      · rcases ih m h1 with h2 | h2
        · left; exact List.mem_cons_of_mem _ h2
        · right; exact h2

/-
Pieces are stored in board_state.py both as Piece objects (in the two index
dicts) and as piece.model_dump() snapshots (in the 2D board array).  A
model_dump is a faithful copy of all fields, so both are embedded as the
same Piece value.
-/

theorem GameStatus.ofValue_value (s : GameStatus) : GameStatus.ofValue s.value = some s := by
  cases s <;> rfl

theorem wellShaped_emptyGrid : WellShaped emptyGrid := by
  constructor
  · simp [emptyGrid]
  · intro row hrow
    rw [emptyGrid, List.mem_replicate] at hrow
    simp [hrow.2]

theorem getD_mem_of_lt {α : Type} (l : List α) (n : Nat) (d : α) (h : n < l.length) :
    l.getD n d ∈ l := by
  rw [List.getD_eq_getElem l d h]
  exact List.getElem_mem h

theorem listSet_of_ge {α : Type} (l : List α) (n : Nat) (v : α) (h : l.length ≤ n) :
    listSet l n v = l := by
  induction l generalizing n with
  | nil => simp [listSet]
  | cons hd t ih =>
    cases n with
    | zero => simp at h
    | succ m =>
      simp only [List.length_cons, Nat.succ_le_succ_iff] at h
      simp [listSet, ih m h]

theorem wellShaped_gridSet (g : Grid) (r c : Int) (v : Option Piece) (h : WellShaped g) :
    WellShaped (gridSet g r c v) := by
  refine ⟨?_, ?_⟩
  · rw [gridSet, listSet_length]; exact h.1
  · intro row hrow
    rcases mem_listSet _ _ _ _ hrow with h1 | h1
    · exact h.2 row h1
    · rcases Nat.lt_or_ge r.toNat g.length with hr | hr
      · rw [h1, listSet_length]
        exact h.2 _ (getD_mem_of_lt _ _ _ hr)
      · rw [gridSet, listSet_of_ge _ _ _ hr] at hrow
        exact h.2 row hrow

theorem gridGet_gridSet_self (g : Grid) (r c : Int) (v : Option Piece)
    (hsh : WellShaped g) (hr0 : 0 ≤ r) (hr : r < 8) (hc0 : 0 ≤ c) (hc : c < 8) :
    gridGet (gridSet g r c v) r.toNat c.toNat = v := by
  have hrlen : r.toNat < g.length := by
    rw [hsh.1]; omega
  have hclen : c.toNat < (g.getD r.toNat []).length := by
    rw [hsh.2 _ (getD_mem_of_lt _ _ _ hrlen)]; omega
  rw [gridGet, gridSet, getD_listSet_self _ _ _ _ hrlen, getD_listSet_self _ _ _ _ hclen]

theorem gridGet_gridSet_ne (g : Grid) (r c : Int) (v : Option Piece) (x y : Nat)
    (h : x ≠ r.toNat ∨ y ≠ c.toNat) :
    gridGet (gridSet g r c v) x y = gridGet g x y := by
  rcases h with h | h
  · rw [gridGet, gridSet, getD_listSet_ne _ _ _ _ _ h, gridGet]
  · rw [gridGet, gridSet, gridGet]
    by_cases hx : x = r.toNat
    · rw [hx]
      rcases Nat.lt_or_ge r.toNat g.length with hr | hr
      · rw [getD_listSet_self _ _ _ _ hr, getD_listSet_ne _ _ _ _ _ h]
      · rw [listSet_of_ge _ _ _ hr]
    · rw [getD_listSet_ne _ _ _ _ _ hx]

theorem getD_replicate_none (y n : Nat) :
    (List.replicate n (none : Option Piece)).getD y none = none := by
  rcases Nat.lt_or_ge y n with hy | hy
  · rw [List.getD_eq_getElem _ _ (by rw [List.length_replicate]; exact hy),
      List.getElem_replicate]
  · rw [List.getD_eq_default _ _ (by rw [List.length_replicate]; exact hy)]

theorem gridGet_emptyGrid (x y : Nat) : gridGet emptyGrid x y = none := by
  show ((List.replicate 8 (List.replicate 8 (none : Option Piece))).getD x []).getD y none = none
  rcases Nat.lt_or_ge x 8 with hx | hx
  · have h1 : (List.replicate 8 (List.replicate 8 (none : Option Piece))).getD x [] =
        List.replicate 8 none := by
      rw [List.getD_eq_getElem _ _ (by rw [List.length_replicate]; exact hx),
        List.getElem_replicate]
    rw [h1, getD_replicate_none]
  · have h1 : (List.replicate 8 (List.replicate 8 (none : Option Piece))).getD x [] = [] := by
      rw [List.getD_eq_default _ _ (by rw [List.length_replicate]; exact hx)]
    rw [h1]
    rfl

theorem WfB_implies_Wf (b : BoardState) (h : WfB b = true) : Wf b := by
  rw [WfB] at h
  simp only [Bool.and_eq_true, List.all_eq_true, decide_eq_true_eq] at h
  obtain ⟨⟨⟨⟨⟨⟨⟨⟨⟨hsize, hlen⟩, hrows⟩, hndf⟩, hndc⟩, hcpos⟩, hfidid⟩, hfc⟩, hcf⟩, hgrid⟩ := h
  refine ⟨hsize, ⟨hlen, fun row hrow => hrows row hrow⟩, hndf, hndc, ?_, ?_, ?_, ?_, ?_⟩
  · intro r c p hget
    have hmem := Dict.mem_of_get _ _ _ hget
    have := hcpos _ hmem
    simp only at this
    exact ⟨this.1.1.1.1.1, this.1.1.1.1.2, this.1.1.1.2, this.1.1.2, this.1.2, this.2⟩
  · intro i p hget
    exact hfidid _ (Dict.mem_of_get _ _ _ hget)
  · intro i p hget
    exact hfc _ (Dict.mem_of_get _ _ _ hget)
  · intro r c p hget
    exact hcf _ (Dict.mem_of_get _ _ _ hget)
  · intro r c hr hc
    exact hgrid r (List.mem_range.mpr hr) c (List.mem_range.mpr hc)

/-! ## Branch characterization of move_piece -/

theorem move_reject_eq (b : BoardState) (fid : String) (r c : Int) (pid : String) (now : Int)
    (e : LogEntry) (hsize : b.board_size = 8)
    (h : firstValidationError b fid r c pid = some e) :
    b.move_piece fid r c pid now = { b with game_log := b.game_log ++ [e] } := by
  rw [firstValidationError] at h
  rw [BoardState.move_piece, hsize]
  cases hfid : Dict.get b.fid_map fid with
  | none =>
    rw [hfid] at h
    simp only at h
    obtain rfl : LogEntry.piece_not_found fid = e := Option.some.inj h
    rfl
  | some piece =>
    rw [hfid] at h
    simp only at h ⊢
    cases hcol : b.resolvePlayerColor pid with
    | none =>
      rw [hcol] at h
      simp only at h
      obtain rfl : LogEntry.not_registered pid = e := Option.some.inj h
      rfl
    | some color =>
      rw [hcol] at h
      simp only at h ⊢
      by_cases h1 : color ≠ b.current_player
      · rw [if_pos h1] at h ⊢
        obtain rfl := Option.some.inj h
        rfl
      · rw [if_neg h1] at h ⊢
        by_cases h2 : piece.color ≠ color
        · rw [if_pos h2] at h ⊢
          obtain rfl := Option.some.inj h
          rfl
        · rw [if_neg h2] at h ⊢
          by_cases h3 : ¬ (0 ≤ r ∧ r < 8 ∧ 0 ≤ c ∧ c < 8)
          · rw [if_pos h3] at h ⊢
            obtain rfl := Option.some.inj h
            rfl
          · rw [if_neg h3] at h ⊢
            cases htgt : Dict.get b.coord_map (r, c) with
            | none =>
              rw [htgt] at h
              exact absurd h (by simp)
            | some target =>
              rw [htgt] at h
              simp only at h ⊢
              by_cases h4 : target.color = piece.color
              · rw [if_pos h4] at h
                rw [if_neg (by simpa using h4)]
                obtain rfl := Option.some.inj h
                rfl
              · rw [if_neg h4] at h
                simp at h

theorem fve_is_error (b : BoardState) (fid : String) (r c : Int) (pid : String)
    (e : LogEntry) (h : firstValidationError b fid r c pid = some e) :
    e.is_error = true := by
  rw [firstValidationError] at h
  cases hfid : Dict.get b.fid_map fid with
  | none =>
    rw [hfid] at h
    obtain rfl := Option.some.inj h
    rfl
  | some piece =>
    rw [hfid] at h
    simp only at h
    cases hcol : b.resolvePlayerColor pid with
    | none =>
      rw [hcol] at h
      obtain rfl := Option.some.inj h
      rfl
    | some color =>
      rw [hcol] at h
      simp only at h
      by_cases h1 : color ≠ b.current_player
      · rw [if_pos h1] at h
        obtain rfl := Option.some.inj h
        rfl
      · rw [if_neg h1] at h
        by_cases h2 : piece.color ≠ color
        · rw [if_pos h2] at h
          obtain rfl := Option.some.inj h
          rfl
        · rw [if_neg h2] at h
          by_cases h3 : ¬ (0 ≤ r ∧ r < 8 ∧ 0 ≤ c ∧ c < 8)
          · rw [if_pos h3] at h
            obtain rfl := Option.some.inj h
            rfl
          · rw [if_neg h3] at h
            cases htgt : Dict.get b.coord_map (r, c) with
            | none =>
              rw [htgt] at h
              exact absurd h (by simp)
            | some target =>
              rw [htgt] at h
              simp only at h
              by_cases h4 : target.color = piece.color
              · rw [if_pos h4] at h
                obtain rfl := Option.some.inj h
                rfl
              · rw [if_neg h4] at h
                simp at h

theorem validation_none_elim (b : BoardState) (fid : String) (r c : Int) (pid : String)
    (h : firstValidationError b fid r c pid = none) :
    ∃ piece color, Dict.get b.fid_map fid = some piece ∧
      b.resolvePlayerColor pid = some color ∧
      color = b.current_player ∧ piece.color = color ∧
      0 ≤ r ∧ r < 8 ∧ 0 ≤ c ∧ c < 8 ∧
      (∀ t, Dict.get b.coord_map (r, c) = some t → t.color ≠ piece.color) := by
  rw [firstValidationError] at h
  cases hfid : Dict.get b.fid_map fid with
  | none => rw [hfid] at h; simp at h
  | some piece =>
    rw [hfid] at h
    simp only at h
    cases hcol : b.resolvePlayerColor pid with
    | none => rw [hcol] at h; simp at h
    | some color =>
      rw [hcol] at h
      simp only at h
      by_cases h1 : color ≠ b.current_player
      · rw [if_pos h1] at h; simp at h
      · rw [if_neg h1] at h
        by_cases h2 : piece.color ≠ color
        · rw [if_pos h2] at h; simp at h
        · rw [if_neg h2] at h
          by_cases h3 : ¬ (0 ≤ r ∧ r < 8 ∧ 0 ≤ c ∧ c < 8)
          · rw [if_pos h3] at h; simp at h
          · rw [if_neg h3] at h
            rw [not_not] at h1 h2 h3
            refine ⟨piece, color, rfl, rfl, h1, h2, h3.1, h3.2.1, h3.2.2.1, h3.2.2.2, ?_⟩
            intro t ht
            rw [ht] at h
            simp only at h
            by_cases h4 : t.color = piece.color
            · rw [if_pos h4] at h; simp at h
            · exact h4

theorem move_success_nocap_eq (b : BoardState) (fid : String) (r c : Int) (pid : String)
    (now : Int) (piece : Piece) (color : String) (hsize : b.board_size = 8)
    (hfid : Dict.get b.fid_map fid = some piece)
    (hcol : b.resolvePlayerColor pid = some color)
    (h1 : color = b.current_player) (h2 : piece.color = color)
    (h3 : 0 ≤ r ∧ r < 8 ∧ 0 ≤ c ∧ c < 8)
    (htgt : Dict.get b.coord_map (r, c) = none) :
    b.move_piece fid r c pid now = b.applyMoveCore piece r c now := by
  rw [BoardState.move_piece, hsize, hfid]
  simp only
  rw [hcol]
  simp only
  rw [if_neg (by rw [not_not]; exact h1), if_neg (by rw [not_not]; exact h2),
    if_neg (by rw [not_not]; exact h3), htgt]

theorem move_success_cap_eq (b : BoardState) (fid : String) (r c : Int) (pid : String)
    (now : Int) (piece target : Piece) (color : String) (hsize : b.board_size = 8)
    (hfid : Dict.get b.fid_map fid = some piece)
    (hcol : b.resolvePlayerColor pid = some color)
    (h1 : color = b.current_player) (h2 : piece.color = color)
    (h3 : 0 ≤ r ∧ r < 8 ∧ 0 ≤ c ∧ c < 8)
    (htgt : Dict.get b.coord_map (r, c) = some target)
    (h4 : target.color ≠ piece.color) :
    b.move_piece fid r c pid now =
      BoardState.applyMoveCore
        { b.removePieceFromBoard target with
          game_log := (b.removePieceFromBoard target).game_log ++
            [LogEntry.capture piece.figure_id piece.name piece.color
              target.figure_id target.name target.color r c] }
        piece r c now := by
  rw [BoardState.move_piece, hsize, hfid]
  simp only
  rw [hcol]
  simp only
  rw [if_neg (by rw [not_not]; exact h1), if_neg (by rw [not_not]; exact h2),
    if_neg (by rw [not_not]; exact h3), htgt]
  simp only
  rw [if_pos h4]

/-! ## Preservation of the consistency invariant -/

theorem coord_cast_eq_iff (r c : Int) (x y : Nat) (hr0 : 0 ≤ r) (hc0 : 0 ≤ c) :
    (((x : Int), (y : Int)) = (r, c)) ↔ (x = r.toNat ∧ y = c.toNat) := by
  rw [Prod.mk.injEq]
  omega

theorem wf_with_game_log (b : BoardState) (l : List LogEntry) (h : Wf b) :
    Wf { b with game_log := l } :=
  ⟨h.size, h.shape, h.nodup_fid, h.nodup_coord, h.coord_pos, h.fid_id, h.fid_coord,
    h.coord_fid, h.grid_coord⟩

theorem wf_remove (b : BoardState) (p : Piece) (hWf : Wf b)
    (hp : Dict.get b.fid_map p.figure_id = some p) :
    Wf (b.removePieceFromBoard p) := by
  have hpc : Dict.get b.coord_map (p.row, p.col) = some p := hWf.fid_coord _ _ hp
  obtain ⟨-, -, hr0, hr8, hc0, hc8⟩ := hWf.coord_pos _ _ _ hpc
  rw [BoardState.removePieceFromBoard]
  refine ⟨hWf.size, wellShaped_gridSet _ _ _ _ hWf.shape,
    Dict.nodupKeys_erase _ _ hWf.nodup_fid, Dict.nodupKeys_erase _ _ hWf.nodup_coord,
    ?_, ?_, ?_, ?_, ?_⟩
  · intro x y q hq
    exact hWf.coord_pos x y q (Dict.get_erase_some _ _ _ _ hWf.nodup_coord hq)
  · intro i q hq
    exact hWf.fid_id i q (Dict.get_erase_some _ _ _ _ hWf.nodup_fid hq)
  · intro i q hq
    have hi : i ≠ p.figure_id := by
      intro he
      rw [he, Dict.get_erase_self _ _ hWf.nodup_fid] at hq
      exact Option.noConfusion hq
    rw [Dict.get_erase_ne _ _ _ hi] at hq
    have hqc := hWf.fid_coord _ _ hq
    have hne : ((q.row, q.col) : Int × Int) ≠ (p.row, p.col) := by
      intro he
      rw [he, hpc] at hqc
      obtain rfl := Option.some.inj hqc
      exact hi (hWf.fid_id _ _ hq).symm
    rw [Dict.get_erase_ne _ _ _ hne]
    exact hqc
  · intro x y q hq
    have hne : ((x, y) : Int × Int) ≠ (p.row, p.col) := by
      intro he
      rw [he, Dict.get_erase_self _ _ hWf.nodup_coord] at hq
      exact Option.noConfusion hq
    rw [Dict.get_erase_ne _ _ _ hne] at hq
    have hqf := hWf.coord_fid _ _ _ hq
    have hfi : q.figure_id ≠ p.figure_id := by
      intro he
      rw [he, hp] at hqf
      obtain rfl := Option.some.inj hqf
      obtain ⟨h1, h2, -⟩ := hWf.coord_pos _ _ _ hq
      exact hne (by rw [← h1, ← h2])
    rw [Dict.get_erase_ne _ _ _ hfi]
    exact hqf
  · intro x y hx hy
    by_cases hA : x = p.row.toNat ∧ y = p.col.toNat
    · rw [hA.1, hA.2, gridGet_gridSet_self _ _ _ _ hWf.shape hr0 hr8 hc0 hc8]
      have hcast : (((p.row.toNat : Nat) : Int), ((p.col.toNat : Nat) : Int)) =
          ((p.row, p.col) : Int × Int) := by
        rw [Prod.mk.injEq]; omega
      rw [hcast, Dict.get_erase_self _ _ hWf.nodup_coord]
    · rw [Classical.not_and_iff_or_not_not] at hA
      rw [gridGet_gridSet_ne _ _ _ _ _ _ hA, hWf.grid_coord x y hx hy,
        Dict.get_erase_ne _ _ _ (by rw [Ne, coord_cast_eq_iff _ _ _ _ hr0 hc0]; exact
          fun hand => (by rcases hA with h | h; exact h hand.1; exact h hand.2))]

theorem wf_applyMoveCore (b : BoardState) (piece : Piece) (r c now : Int) (hWf : Wf b)
    (hp : Dict.get b.fid_map piece.figure_id = some piece)
    (hr0 : 0 ≤ r) (hr8 : r < 8) (hc0 : 0 ≤ c) (hc8 : c < 8)
    (htgt : Dict.get b.coord_map (r, c) = none) :
    Wf (b.applyMoveCore piece r c now) := by
  have hpc : Dict.get b.coord_map (piece.row, piece.col) = some piece := hWf.fid_coord _ _ hp
  obtain ⟨-, -, hor0, hor8, hoc0, hoc8⟩ := hWf.coord_pos _ _ _ hpc
  have hold_ne_new : ((piece.row, piece.col) : Int × Int) ≠ (r, c) := by
    intro he
    rw [he, htgt] at hpc
    exact Option.noConfusion hpc
  rw [BoardState.applyMoveCore]
  refine ⟨hWf.size, wellShaped_gridSet _ _ _ _ (wellShaped_gridSet _ _ _ _ hWf.shape),
    Dict.nodupKeys_setA _ _ _ hWf.nodup_fid,
    Dict.nodupKeys_setA _ _ _ (Dict.nodupKeys_erase _ _ hWf.nodup_coord),
    ?_, ?_, ?_, ?_, ?_⟩
  · intro x y q hq
    by_cases hxy : ((x, y) : Int × Int) = (r, c)
    · rw [hxy, Dict.get_setA_self] at hq
      obtain rfl := Option.some.inj hq
      obtain ⟨rfl, rfl⟩ := Prod.mk.injEq .. ▸ hxy
      exact ⟨rfl, rfl, hr0, hr8, hc0, hc8⟩
    · rw [Dict.get_setA_ne _ _ _ _ hxy] at hq
      exact hWf.coord_pos x y q
        (Dict.get_erase_some _ _ _ _ hWf.nodup_coord hq)
  · intro i q hq
    by_cases hi : i = piece.figure_id
    · rw [hi, Dict.get_setA_self] at hq
      obtain rfl := Option.some.inj hq
      rw [hi]
    · rw [Dict.get_setA_ne _ _ _ _ hi] at hq
      exact hWf.fid_id i q hq
  · intro i q hq
    by_cases hi : i = piece.figure_id
    · rw [hi, Dict.get_setA_self] at hq
      obtain rfl := Option.some.inj hq
      rw [Dict.get_setA_self]
    · rw [Dict.get_setA_ne _ _ _ _ hi] at hq
      have hqc := hWf.fid_coord _ _ hq
      have hne_new : ((q.row, q.col) : Int × Int) ≠ (r, c) := by
        intro he
        rw [he, htgt] at hqc
        exact Option.noConfusion hqc
      have hne_old : ((q.row, q.col) : Int × Int) ≠ (piece.row, piece.col) := by
        intro he
        rw [he, hpc] at hqc
        obtain rfl := Option.some.inj hqc
        exact hi (hWf.fid_id _ _ hq).symm
      rw [Dict.get_setA_ne _ _ _ _ hne_new, Dict.get_erase_ne _ _ _ hne_old]
      exact hqc
  · intro x y q hq
    by_cases hxy : ((x, y) : Int × Int) = (r, c)
    · rw [hxy, Dict.get_setA_self] at hq
      obtain rfl := Option.some.inj hq
      rw [Dict.get_setA_self]
    · rw [Dict.get_setA_ne _ _ _ _ hxy] at hq
      have hne_old : ((x, y) : Int × Int) ≠ (piece.row, piece.col) := by
        intro he
        rw [he, Dict.get_erase_self _ _ hWf.nodup_coord] at hq
        exact Option.noConfusion hq
      rw [Dict.get_erase_ne _ _ _ hne_old] at hq
      have hqf := hWf.coord_fid _ _ _ hq
      have hfi : q.figure_id ≠ piece.figure_id := by
        intro he
        rw [he, hp] at hqf
        obtain rfl := Option.some.inj hqf
        obtain ⟨h1, h2, -⟩ := hWf.coord_pos _ _ _ hq
        exact hne_old (by rw [← h1, ← h2])
      rw [Dict.get_setA_ne _ _ _ _ hfi]
      exact hqf
  · intro x y hx hy
    by_cases hA : x = r.toNat ∧ y = c.toNat
    · rw [hA.1, hA.2,
        gridGet_gridSet_self _ _ _ _ (wellShaped_gridSet _ _ _ _ hWf.shape) hr0 hr8 hc0 hc8]
      have hcast : (((r.toNat : Nat) : Int), ((c.toNat : Nat) : Int)) = ((r, c) : Int × Int) := by
        rw [Prod.mk.injEq]; omega
      rw [hcast, Dict.get_setA_self]
    · rw [Classical.not_and_iff_or_not_not] at hA
      have hIne : ((x, y) : Int × Int) ≠ (r, c) := by
        rw [Ne, coord_cast_eq_iff _ _ _ _ hr0 hc0]
        exact fun hand => (by rcases hA with h | h; exact h hand.1; exact h hand.2)
      rw [gridGet_gridSet_ne _ _ _ _ _ _ hA, Dict.get_setA_ne _ _ _ _ hIne]
      by_cases hB : x = piece.row.toNat ∧ y = piece.col.toNat
      · rw [hB.1, hB.2, gridGet_gridSet_self _ _ _ _ hWf.shape hor0 hor8 hoc0 hoc8]
        have hcast : (((piece.row.toNat : Nat) : Int), ((piece.col.toNat : Nat) : Int)) =
            ((piece.row, piece.col) : Int × Int) := by
          rw [Prod.mk.injEq]; omega
        rw [hcast, Dict.get_erase_self _ _ hWf.nodup_coord]
      · rw [Classical.not_and_iff_or_not_not] at hB
        have hIne2 : ((x, y) : Int × Int) ≠ (piece.row, piece.col) := by
          rw [Ne, coord_cast_eq_iff _ _ _ _ hor0 hoc0]
          exact fun hand => (by rcases hB with h | h; exact h hand.1; exact h hand.2)
        rw [gridGet_gridSet_ne _ _ _ _ _ _ hB, hWf.grid_coord x y hx hy,
          Dict.get_erase_ne _ _ _ hIne2]

theorem wf_move_piece (b : BoardState) (fid : String) (r c : Int) (pid : String) (now : Int)
    (hWf : Wf b) : Wf (b.move_piece fid r c pid now) := by
  cases hfve : firstValidationError b fid r c pid with
  | some e =>
    rw [move_reject_eq b fid r c pid now e hWf.size hfve]
    exact wf_with_game_log b _ hWf
  | none =>
    obtain ⟨piece, color, hfid, hcol, h1, h2, hr0, hr8, hc0, hc8, hns⟩ :=
      validation_none_elim b fid r c pid hfve
    have hpfid : Dict.get b.fid_map piece.figure_id = some piece := by
      rw [hWf.fid_id _ _ hfid]; exact hfid
    cases htgt : Dict.get b.coord_map (r, c) with
    | none =>
      rw [move_success_nocap_eq b fid r c pid now piece color hWf.size hfid hcol h1 h2
        ⟨hr0, hr8, hc0, hc8⟩ htgt]
      exact wf_applyMoveCore b piece r c now hWf hpfid hr0 hr8 hc0 hc8 htgt
    | some target =>
      have hne : target.color ≠ piece.color := hns target htgt
      rw [move_success_cap_eq b fid r c pid now piece target color hWf.size hfid hcol h1 h2
        ⟨hr0, hr8, hc0, hc8⟩ htgt hne]
      have htfid : Dict.get b.fid_map target.figure_id = some target :=
        hWf.coord_fid _ _ _ htgt
      have hWf1 : Wf (b.removePieceFromBoard target) := wf_remove b target hWf htfid
      have hWf2 : Wf { b.removePieceFromBoard target with
          game_log := (b.removePieceFromBoard target).game_log ++
            [LogEntry.capture piece.figure_id piece.name piece.color
              target.figure_id target.name target.color r c] } :=
        wf_with_game_log _ _ hWf1
      have hfidne : piece.figure_id ≠ target.figure_id := by
        intro he
        rw [he, htfid] at hpfid
        obtain rfl := Option.some.inj hpfid
        exact hne rfl
      obtain ⟨htr, htc, -⟩ := hWf.coord_pos _ _ _ htgt
      apply wf_applyMoveCore _ piece r c now hWf2 ?_ hr0 hr8 hc0 hc8 ?_
      · show Dict.get (Dict.erase b.fid_map target.figure_id) piece.figure_id = some piece
        rw [Dict.get_erase_ne _ _ _ hfidne]
        exact hpfid
      · show Dict.get (Dict.erase b.coord_map (target.row, target.col)) (r, c) = none
        rw [htr, htc]
        exact Dict.get_erase_self _ _ hWf.nodup_coord

/-! ## Characterizing the __init__ piece loop -/

theorem Dict.nodupKeys_map_key {α K : Type} [DecidableEq K] (ps : List α) (f : α → K)
    (hnd : (ps.map f).Nodup) : Dict.NodupKeys (ps.map fun p => (f p, p)) := by
  rw [Dict.NodupKeys, List.map_map]
  exact hnd

theorem Dict.get_map_key {α K : Type} [DecidableEq K] (ps : List α) (f : α → K) (q : α)
    (hnd : (ps.map f).Nodup) (hq : q ∈ ps) :
    Dict.get (ps.map fun p => (f p, p)) (f q) = some q :=
  Dict.get_of_mem _ _ _ (Dict.nodupKeys_map_key ps f hnd)
    (List.mem_map_of_mem (fun p => (f p, p)) hq)

theorem Dict.get_map_key_elim {α K : Type} [DecidableEq K] (ps : List α) (f : α → K)
    (k : K) (q : α) (h : Dict.get (ps.map fun p => (f p, p)) k = some q) :
    q ∈ ps ∧ f q = k := by
  have hmem := Dict.mem_of_get _ _ _ h
  rcases List.mem_map.mp hmem with ⟨p, hp, he⟩
  have h1 : f p = k := congrArg Prod.fst he
  have h2 : p = q := congrArg Prod.snd he
  exact ⟨h2 ▸ hp, h2 ▸ h1⟩

theorem Dict.get_map_key_none {α K : Type} [DecidableEq K] (ps : List α) (f : α → K)
    (k : K) (h : ∀ p ∈ ps, f p ≠ k) :
    Dict.get (ps.map fun p => (f p, p)) k = none := by
  cases hg : Dict.get (ps.map fun p => (f p, p)) k with
  | none => rfl
  | some q =>
    obtain ⟨hq, hk⟩ := Dict.get_map_key_elim ps f k q hg
    exact absurd hk (h q hq)

theorem initLoop_shape (ps : List Piece) (g : Grid) (fm : List (String × Piece))
    (cm : List ((Int × Int) × Piece)) (hsh : WellShaped g) :
    WellShaped (initPiecesLoop g fm cm ps).1 := by
  induction ps generalizing g fm cm with
  | nil => exact hsh
  | cons p rest ih =>
    rw [initPiecesLoop]
    exact ih _ _ _ (wellShaped_gridSet _ _ _ _ hsh)

theorem initLoop_fm (ps : List Piece) (g : Grid) (fm : List (String × Piece))
    (cm : List ((Int × Int) × Piece))
    (hfresh : ∀ p ∈ ps, Dict.get fm p.figure_id = none)
    (hdist : (ps.map fun p => p.figure_id).Nodup) :
    (initPiecesLoop g fm cm ps).2.1 = fm ++ ps.map fun p => (p.figure_id, p) := by
  induction ps generalizing g fm cm with
  | nil => simp [initPiecesLoop]
  | cons p rest ih =>
    rw [initPiecesLoop]
    rw [List.map_cons, List.nodup_cons] at hdist
    have happ : Dict.setA fm p.figure_id p = fm ++ [(p.figure_id, p)] :=
      Dict.setA_of_get_none _ _ _ (hfresh p (List.mem_cons_self _ _))
    rw [happ, ih _ _ _ ?_ hdist.2]
    · rw [List.map_cons, List.append_assoc]
      rfl
    · intro q hq
      rw [Dict.get_append, hfresh q (List.mem_cons_of_mem _ hq)]
      have hne : q.figure_id ≠ p.figure_id := by
        intro he
        exact hdist.1 (he ▸ List.mem_map_of_mem (fun p => p.figure_id) hq)
      simp [Dict.get, hne]

theorem initLoop_cm (ps : List Piece) (g : Grid) (fm : List (String × Piece))
    (cm : List ((Int × Int) × Piece))
    (hfresh : ∀ p ∈ ps, Dict.get cm ((p.row, p.col) : Int × Int) = none)
    (hdist : (ps.map fun p => ((p.row, p.col) : Int × Int)).Nodup) :
    (initPiecesLoop g fm cm ps).2.2 =
      cm ++ ps.map fun p => (((p.row, p.col) : Int × Int), p) := by
  induction ps generalizing g fm cm with
  | nil => simp [initPiecesLoop]
  | cons p rest ih =>
    rw [initPiecesLoop]
    rw [List.map_cons, List.nodup_cons] at hdist
    have happ : Dict.setA cm ((p.row, p.col) : Int × Int) p =
        cm ++ [(((p.row, p.col) : Int × Int), p)] :=
      Dict.setA_of_get_none _ _ _ (hfresh p (List.mem_cons_self _ _))
    rw [happ, ih _ _ _ ?_ hdist.2]
    · rw [List.map_cons, List.append_assoc]
      rfl
    · intro q hq
      rw [Dict.get_append, hfresh q (List.mem_cons_of_mem _ hq)]
      have hne : ((q.row, q.col) : Int × Int) ≠ ((p.row, p.col) : Int × Int) := by
        intro he
        exact hdist.1 (he ▸ List.mem_map_of_mem (fun p => ((p.row, p.col) : Int × Int)) hq)
      simp [Dict.get, hne]

theorem initLoop_grid (ps : List Piece) (g : Grid) (fm : List (String × Piece))
    (cm : List ((Int × Int) × Piece)) (hsh : WellShaped g)
    (hdist : (ps.map fun p => ((p.row, p.col) : Int × Int)).Nodup)
    (hrange : ∀ p ∈ ps, 0 ≤ p.row ∧ p.row < 8 ∧ 0 ≤ p.col ∧ p.col < 8)
    (x y : Nat) (hx : x < 8) (hy : y < 8) :
    gridGet (initPiecesLoop g fm cm ps).1 x y =
      match Dict.get (ps.map fun p => (((p.row, p.col) : Int × Int), p)) ((x : Int), (y : Int)) with
      | some q => some q
      | none => gridGet g x y := by
  induction ps generalizing g fm cm with
  | nil => simp [initPiecesLoop, Dict.get]
  | cons p rest ih =>
    rw [initPiecesLoop, List.map_cons]
    rw [List.map_cons, List.nodup_cons] at hdist
    obtain ⟨hp0, hp8, hq0, hq8⟩ := hrange p (List.mem_cons_self _ _)
    rw [ih _ _ _ (wellShaped_gridSet _ _ _ _ hsh) hdist.2
      (fun q hq => hrange q (List.mem_cons_of_mem _ hq))]
    by_cases hxy : (((x : Int), (y : Int)) : Int × Int) = ((p.row, p.col) : Int × Int)
    · have hrestnone :
          Dict.get (rest.map fun p => (((p.row, p.col) : Int × Int), p)) ((x : Int), (y : Int)) =
            none := by
        apply Dict.get_map_key_none
        intro q hq he
        exact hdist.1 ((he.trans hxy) ▸
          List.mem_map_of_mem (fun p => ((p.row, p.col) : Int × Int)) hq)
      rw [hrestnone]
      have hcast := (coord_cast_eq_iff p.row p.col x y hp0 hq0).mp hxy
      rw [Dict.get, if_pos hxy]
      simp only
      rw [hcast.1, hcast.2, gridGet_gridSet_self _ _ _ _ hsh hp0 hp8 hq0 hq8]
    · rw [Dict.get, if_neg hxy]
      cases hrest :
          Dict.get (rest.map fun p => (((p.row, p.col) : Int × Int), p)) ((x : Int), (y : Int)) with
      | some q => simp only
      | none =>
        simp only
        apply gridGet_gridSet_ne
        have := (coord_cast_eq_iff p.row p.col x y hp0 hq0).not.mp hxy
        rw [Classical.not_and_iff_or_not_not] at this
        exact this

/-! ## Facts about the values view of a consistent fid_map -/

theorem wf_fid_entries (b : BoardState) (hWf : Wf b) :
    ∀ e ∈ b.fid_map, e.2.figure_id = e.1 := by
  intro e he
  obtain ⟨k, v⟩ := e
  exact hWf.fid_id k v (Dict.get_of_mem _ _ _ hWf.nodup_fid he)

theorem wf_values_get (b : BoardState) (hWf : Wf b) :
    ∀ p ∈ Dict.values b.fid_map, Dict.get b.fid_map p.figure_id = some p := by
  intro p hp
  rcases List.mem_map.mp hp with ⟨e, he, rfl⟩
  rw [wf_fid_entries b hWf e he]
  obtain ⟨k, v⟩ := e
  exact Dict.get_of_mem _ _ _ hWf.nodup_fid he

theorem wf_values_range (b : BoardState) (hWf : Wf b) :
    ∀ p ∈ Dict.values b.fid_map, 0 ≤ p.row ∧ p.row < 8 ∧ 0 ≤ p.col ∧ p.col < 8 := by
  intro p hp
  have hc := hWf.fid_coord _ _ (wf_values_get b hWf p hp)
  obtain ⟨-, -, h⟩ := hWf.coord_pos _ _ _ hc
  exact h

theorem wf_values_fid_nodup (b : BoardState) (hWf : Wf b) :
    ((Dict.values b.fid_map).map fun p => p.figure_id).Nodup := by
  rw [Dict.values, List.map_map]
  have heq : b.fid_map.map ((fun p => p.figure_id) ∘ Prod.snd) = b.fid_map.map Prod.fst :=
    List.map_congr_left (fun e he => wf_fid_entries b hWf e he)
  rw [heq]
  exact hWf.nodup_fid

theorem wf_values_coord_nodup (b : BoardState) (hWf : Wf b) :
    ((Dict.values b.fid_map).map fun p => ((p.row, p.col) : Int × Int)).Nodup := by
  rw [Dict.values, List.map_map, List.Nodup, List.pairwise_map]
  have hpair : b.fid_map.Pairwise fun a b => a.1 ≠ b.1 := by
    have h := hWf.nodup_fid
    rw [Dict.NodupKeys, List.Nodup, List.pairwise_map] at h
    exact h
  refine hpair.imp_of_mem ?_
  intro a b' ha hb hne he
  have hga : Dict.get b.fid_map a.1 = some a.2 := by
    obtain ⟨k, v⟩ := a
    exact Dict.get_of_mem _ _ _ hWf.nodup_fid ha
  have hgb : Dict.get b.fid_map b'.1 = some b'.2 := by
    obtain ⟨k, v⟩ := b'
    exact Dict.get_of_mem _ _ _ hWf.nodup_fid hb
  have hca := hWf.fid_coord _ _ hga
  have hcb := hWf.fid_coord _ _ hgb
  rw [Function.comp, Function.comp] at he
  rw [he, hcb] at hca
  obtain heq := Option.some.inj hca
  apply hne
  rw [← hWf.fid_id _ _ hga, ← hWf.fid_id _ _ hgb, heq]

theorem wf_rebuild_fid (b : BoardState) (hWf : Wf b) :
    ((Dict.values b.fid_map).map fun p => (p.figure_id, p)) = b.fid_map := by
  rw [Dict.values, List.map_map]
  have heq : ∀ e ∈ b.fid_map, ((fun p => (p.figure_id, p)) ∘ Prod.snd) e = id e := by
    intro e he
    obtain ⟨k, v⟩ := e
    have h1 := wf_fid_entries b hWf (k, v) he
    simp only [Function.comp, id]
    rw [Prod.mk.injEq]
    exact ⟨h1, rfl⟩
  rw [List.map_congr_left heq, List.map_id]

/-! ## Consistency of construction -/

theorem wf_ofInitialData (d : InitialData) (b : BoardState) (hw : InitWf d)
    (h : BoardState.ofInitialData d = some b) : Wf b := by
  rw [BoardState.ofInitialData] at h
  cases hst : GameStatus.ofValue d.game_status with
  | none => rw [hst] at h; exact absurd h (by simp)
  | some st =>
    rw [hst] at h
    simp only at h
    obtain rfl := Option.some.inj h
    have hfm : (initPiecesLoop emptyGrid [] [] d.board_pieces).2.1 =
        d.board_pieces.map fun p => (p.figure_id, p) := by
      rw [initLoop_fm d.board_pieces emptyGrid [] [] (fun p hp => rfl) hw.1, List.nil_append]
    have hcm : (initPiecesLoop emptyGrid [] [] d.board_pieces).2.2 =
        d.board_pieces.map fun p => (((p.row, p.col) : Int × Int), p) := by
      rw [initLoop_cm d.board_pieces emptyGrid [] [] (fun p hp => rfl) hw.2.1, List.nil_append]
    refine ⟨rfl, initLoop_shape _ _ _ _ wellShaped_emptyGrid, ?_, ?_, ?_, ?_, ?_, ?_, ?_⟩
    · show Dict.NodupKeys (initPiecesLoop emptyGrid [] [] d.board_pieces).2.1
      rw [hfm]
      exact Dict.nodupKeys_map_key _ _ hw.1
    · show Dict.NodupKeys (initPiecesLoop emptyGrid [] [] d.board_pieces).2.2
      rw [hcm]
      exact Dict.nodupKeys_map_key _ _ hw.2.1
    · intro x y q hq
      rw [hcm] at hq
      obtain ⟨hmem, hkey⟩ := Dict.get_map_key_elim _ _ _ _ hq
      have h1 : q.row = x := congrArg Prod.fst hkey
      have h2 : q.col = y := congrArg Prod.snd hkey
      obtain ⟨h3, h4, h5, h6⟩ := hw.2.2 q hmem
      exact ⟨h1, h2, h1 ▸ h3, h1 ▸ h4, h2 ▸ h5, h2 ▸ h6⟩
    · intro i q hq
      rw [hfm] at hq
      exact (Dict.get_map_key_elim _ _ _ _ hq).2
    · intro i q hq
      rw [hfm] at hq
      rw [hcm]
      exact Dict.get_map_key _ _ _ hw.2.1 (Dict.get_map_key_elim _ _ _ _ hq).1
    · intro x y q hq
      rw [hcm] at hq
      rw [hfm]
      exact Dict.get_map_key _ _ _ hw.1 (Dict.get_map_key_elim _ _ _ _ hq).1
    · intro x y hx hy
      show gridGet (initPiecesLoop emptyGrid [] [] d.board_pieces).1 x y = _
      rw [initLoop_grid _ _ _ _ wellShaped_emptyGrid hw.2.1 hw.2.2 x y hx hy, hcm]
      cases hg : Dict.get (d.board_pieces.map fun p => (((p.row, p.col) : Int × Int), p))
          ((x : Int), (y : Int)) with
      | some q => simp only
      | none => simp only [gridGet_emptyGrid]

/-- C1: a move request failing one of the six validation checks never
raises (move_piece is total in this embedding, as in the source, which
returns self on every rejection), appends exactly one error-tagged entry
to game_log, and leaves every other component — the piece set (fid_map),
both indexes, the grid, current_player, turn_number, moves_log,
last_move_at and every scalar field — unchanged. -/
theorem c1_rejected_move_only_appends_error (b : BoardState) (figure_id : String)
    (new_row new_col : Int) (pid : String) (now : Int) (hsize : b.board_size = 8)
    (hrej : (firstValidationError b figure_id new_row new_col pid).isSome = true) :
    ∃ e, e.is_error = true ∧
      b.move_piece figure_id new_row new_col pid now =
        { b with game_log := b.game_log ++ [e] } := by
  obtain ⟨e, he⟩ := Option.isSome_iff_exists.mp hrej
  exact ⟨e, fve_is_error b figure_id new_row new_col pid e he,
    move_reject_eq b figure_id new_row new_col pid now e hsize he⟩

theorem c1_witness :
    ∃ e, e.is_error = true ∧
      testBoard.move_piece "b1" 0 1 "p1" 0 =
        { testBoard with game_log := testBoard.game_log ++ [e] } :=
  c1_rejected_move_only_appends_error testBoard "b1" 0 1 "p1" 0 (by decide) (by decide)

/-- C2: the six validation checks run in exactly the specified order, each
a terminal early-exit: whenever the order-sensitive firstValidationError
(written from the spec's listed order, bounds before occupancy) selects an
error for the request, move_piece appends exactly that entry and nothing
else happens — so a request failing an earlier check can never surface a
later check's message. -/
theorem c2_validation_order (b : BoardState) (figure_id : String) (new_row new_col : Int)
    (pid : String) (now : Int) (e : LogEntry) (hsize : b.board_size = 8)
    (h : firstValidationError b figure_id new_row new_col pid = some e) :
    b.move_piece figure_id new_row new_col pid now =
      { b with game_log := b.game_log ++ [e] } :=
  move_reject_eq b figure_id new_row new_col pid now e hsize h

theorem c2_witness :
    testBoard.move_piece "w1" 9 9 "p2" 0 =
      { testBoard with game_log := testBoard.game_log ++
          [LogEntry.out_of_turn "white" "black"] } :=
  c2_validation_order testBoard "w1" 9 9 "p2" 0 (LogEntry.out_of_turn "white" "black")
    (by decide) (by decide)

/-- C3: a valid in-turn move onto a square holding an opposing piece
removes exactly that piece from the id index, the coordinate index and the
grid (it is never re-added anywhere), and appends exactly one capture
entry followed immediately by the success summary of the same call. -/
theorem c3_capture_removes_target (b : BoardState) (figure_id : String)
    (new_row new_col : Int) (pid : String) (now : Int) (piece target : Piece)
    (hWf : Wf b)
    (hfid : Dict.get b.fid_map figure_id = some piece)
    (hok : firstValidationError b figure_id new_row new_col pid = none)
    (htgt : Dict.get b.coord_map (new_row, new_col) = some target) :
    let b' := b.move_piece figure_id new_row new_col pid now
    Dict.get b'.fid_map target.figure_id = none ∧
    (∀ k, Dict.get b'.coord_map k ≠ some target) ∧
    (∀ x y : Nat, x < 8 → y < 8 → gridGet b'.board x y ≠ some target) ∧
    b'.game_log = b.game_log ++
      [LogEntry.capture piece.figure_id piece.name piece.color
        target.figure_id target.name target.color new_row new_col,
       LogEntry.success_move piece.name piece.color piece.row piece.col new_row new_col
         (if b.current_player = "white" then "black" else "white")] := by
  intro b'
  obtain ⟨piece0, color, hfid0, hcol, h1, h2, hr0, hr8, hc0, hc8, hns⟩ :=
    validation_none_elim b figure_id new_row new_col pid hok
  have hpe : piece0 = piece := by
    rw [hfid] at hfid0
    exact (Option.some.inj hfid0).symm
  subst hpe
  have hne : target.color ≠ piece0.color := hns target htgt
  have hmv := move_success_cap_eq b figure_id new_row new_col pid now piece0 target color
    hWf.size hfid hcol h1 h2 ⟨hr0, hr8, hc0, hc8⟩ htgt hne
  have hpfid : Dict.get b.fid_map piece0.figure_id = some piece0 := by
    rw [hWf.fid_id _ _ hfid]; exact hfid
  have htfid : Dict.get b.fid_map target.figure_id = some target := hWf.coord_fid _ _ _ htgt
  have hfidne : target.figure_id ≠ piece0.figure_id := by
    intro he
    rw [← he, htfid] at hpfid
    obtain rfl := Option.some.inj hpfid
    exact hne rfl
  obtain ⟨htr, htc, -⟩ := hWf.coord_pos _ _ _ htgt
  have hpc : Dict.get b.coord_map (piece0.row, piece0.col) = some piece0 :=
    hWf.fid_coord _ _ hpfid
  obtain ⟨-, -, hor0, hor8, hoc0, hoc8⟩ := hWf.coord_pos _ _ _ hpc
  have hold_ne_new : ((piece0.row, piece0.col) : Int × Int) ≠ (new_row, new_col) := by
    intro he
    rw [he, htgt] at hpc
    obtain rfl := Option.some.inj hpc
    exact hne rfl
  show _ ∧ _ ∧ _ ∧ _
  rw [show b' = b.move_piece figure_id new_row new_col pid now from rfl, hmv,
    BoardState.applyMoveCore, BoardState.removePieceFromBoard]
  refine ⟨?_, ?_, ?_, ?_⟩
  · show Dict.get (Dict.setA (Dict.erase b.fid_map target.figure_id) piece0.figure_id _)
      target.figure_id = none
    rw [Dict.get_setA_ne _ _ _ _ hfidne, Dict.get_erase_self _ _ hWf.nodup_fid]
  · intro k
    obtain ⟨x, y⟩ := k
    show Dict.get (Dict.setA (Dict.erase (Dict.erase b.coord_map (target.row, target.col))
      (piece0.row, piece0.col)) (new_row, new_col) _) (x, y) ≠ some target
    by_cases hk : ((x, y) : Int × Int) = ((new_row, new_col) : Int × Int)
    · rw [hk, Dict.get_setA_self]
      intro he
      obtain he2 := Option.some.inj he
      exact hne (by rw [← he2])
    · rw [Dict.get_setA_ne _ _ _ _ hk]
      intro he
      have h3 : Dict.get (Dict.erase b.coord_map (target.row, target.col)) (x, y) = some target :=
        Dict.get_erase_some _ _ _ _ (Dict.nodupKeys_erase _ _ hWf.nodup_coord) he
      have h4 : Dict.get b.coord_map (x, y) = some target :=
        Dict.get_erase_some _ _ _ _ hWf.nodup_coord h3
      obtain ⟨hk1, hk2, -⟩ := hWf.coord_pos x y target h4
      apply hk
      rw [Prod.mk.injEq]
      constructor
      · rw [← hk1, htr]
      · rw [← hk2, htc]
  · intro x y hx hy
    show gridGet (gridSet (gridSet (gridSet b.board target.row target.col none)
      piece0.row piece0.col none) new_row new_col _) x y ≠ some target
    by_cases hA : x = new_row.toNat ∧ y = new_col.toNat
    · rw [hA.1, hA.2, gridGet_gridSet_self _ _ _ _
        (wellShaped_gridSet _ _ _ _ (wellShaped_gridSet _ _ _ _ hWf.shape)) hr0 hr8 hc0 hc8]
      intro he
      obtain he2 := Option.some.inj he
      exact hne (by rw [← he2])
    · rw [Classical.not_and_iff_or_not_not] at hA
      rw [gridGet_gridSet_ne _ _ _ _ _ _ hA]
      by_cases hB : x = piece0.row.toNat ∧ y = piece0.col.toNat
      · rw [hB.1, hB.2, gridGet_gridSet_self _ _ _ _
          (wellShaped_gridSet _ _ _ _ hWf.shape) hor0 hor8 hoc0 hoc8]
        exact fun he => Option.noConfusion he
      · rw [Classical.not_and_iff_or_not_not] at hB
        rw [gridGet_gridSet_ne _ _ _ _ _ _ hB]
        have hAint : ((x, y) : Int × Int) ≠ (new_row, new_col) := by
          rw [Ne, coord_cast_eq_iff _ _ _ _ hr0 hc0]
          exact fun hand => (by rcases hA with h | h; exact h hand.1; exact h hand.2)
        by_cases hC : x = target.row.toNat ∧ y = target.col.toNat
        · exact absurd (by
            rw [hC.1, hC.2]
            rw [Prod.mk.injEq]
            constructor
            · rw [htr]; omega
            · rw [htc]; omega) hAint
        · rw [Classical.not_and_iff_or_not_not] at hC
          rw [gridGet_gridSet_ne _ _ _ _ _ _ hC, hWf.grid_coord x y hx hy]
          intro he
          obtain ⟨hk1, hk2, -⟩ := hWf.coord_pos _ _ _ he
          rcases hC with h | h
          · exact h (by omega)
          · exact h (by omega)
  · show (b.game_log ++ [LogEntry.capture piece0.figure_id piece0.name piece0.color
        target.figure_id target.name target.color new_row new_col]) ++
        [LogEntry.success_move piece0.name piece0.color piece0.row piece0.col new_row new_col
          (if b.current_player = "white" then "black" else "white")] = _
    rw [List.append_assoc]
    rfl

theorem c3_witness :
    Dict.get (testBoard.move_piece "w1" 0 0 "p1" 5).fid_map "b1" = none ∧
    Dict.get (testBoard.move_piece "w1" 0 0 "p1" 5).coord_map (0, 0) ≠ some bRook ∧
    gridGet (testBoard.move_piece "w1" 0 0 "p1" 5).board 0 0 ≠ some bRook ∧
    (testBoard.move_piece "w1" 0 0 "p1" 5).game_log = testBoard.game_log ++
      [LogEntry.capture "w1" "Rook" "white" "b1" "Rook" "black" 0 0,
       LogEntry.success_move "Rook" "white" 7 0 0 0
         (if testBoard.current_player = "white" then "black" else "white")] := by
  have h := c3_capture_removes_target testBoard "w1" 0 0 "p1" 5 wRook bRook
    (WfB_implies_Wf testBoard (by decide)) (by decide) (by decide) (by decide)
  exact ⟨h.1, h.2.1 (0, 0), h.2.2.1 0 0 (by decide) (by decide), h.2.2.2⟩

/-- C4: grid/index consistency is an invariant: it is established by
construction from wellformed initial data (pairwise-distinct ids and
in-range pairwise-distinct coordinates, as in config.INITIAL_GAME_STATE
and in any serialized consistent state), preserved by move_piece whether
the request is accepted or rejected, preserved by piece removal, and it
says exactly that a piece occupies grid cell (x,y) iff the coordinate
index maps (x,y) to it and the id index maps its figure_id to a piece
whose row/col are (x,y). -/
theorem c4_grid_index_consistency :
    (∀ d b, InitWf d → BoardState.ofInitialData d = some b → Wf b) ∧
    (∀ b figure_id new_row new_col pid now, Wf b →
      Wf (BoardState.move_piece b figure_id new_row new_col pid now)) ∧
    (∀ b p, Wf b → Dict.get b.fid_map p.figure_id = some p →
      Wf (b.removePieceFromBoard p)) ∧
    (∀ b, Wf b → ∀ (x y : Nat) (p : Piece), x < 8 → y < 8 →
      (gridGet b.board x y = some p ↔
        (Dict.get b.coord_map ((x : Int), (y : Int)) = some p ∧
         Dict.get b.fid_map p.figure_id = some p ∧
         p.row = (x : Int) ∧ p.col = (y : Int)))) := by
  refine ⟨wf_ofInitialData, fun b fid r c pid now hWf => wf_move_piece b fid r c pid now hWf,
    fun b p hWf hp => wf_remove b p hWf hp, ?_⟩
  intro b hWf x y p hx hy
  constructor
  · intro hg
    rw [hWf.grid_coord x y hx hy] at hg
    obtain ⟨h1, h2, -⟩ := hWf.coord_pos _ _ _ hg
    exact ⟨hg, hWf.coord_fid _ _ _ hg, h1, h2⟩
  · rintro ⟨hc, -, -⟩
    rw [hWf.grid_coord x y hx hy]
    exact hc

theorem c4_witness : Wf (testBoard.move_piece "w1" 4 0 "p1" 7) :=
  c4_grid_index_consistency.2.1 testBoard "w1" 4 0 "p1" 7
    (WfB_implies_Wf testBoard (by decide))

/-- C5: feeding to_json_serializable back through BoardState.__init__
reproduces an equivalent state for every consistent BoardState — same
grid occupancy, identical id index, pointwise-equal coordinate index, and
identical logs, status, current player, turn number, player bindings and
every scalar field.  to_json_serializable itself is a pure function of the
state in this embedding (as in the source, which builds the dict from the
current attributes alone), so its determinism and the stability of its
field set are definitional. -/
theorem c5_serialization_roundtrip (b : BoardState) (hWf : Wf b) :
    ∃ b', BoardState.ofInitialData (SerializedBoard.toInitialData b.to_json_serializable) =
        some b' ∧
      (∀ x y : Nat, x < 8 → y < 8 → gridGet b'.board x y = gridGet b.board x y) ∧
      b'.fid_map = b.fid_map ∧
      (∀ k, Dict.get b'.coord_map k = Dict.get b.coord_map k) ∧
      b'.game_log = b.game_log ∧ b'.moves_log = b.moves_log ∧
      b'.game_status = b.game_status ∧ b'.current_player = b.current_player ∧
      b'.turn_number = b.turn_number ∧
      b'.players_white = b.players_white ∧ b'.players_black = b.players_black ∧
      b'.white_hand = b.white_hand ∧ b'.black_hand = b.black_hand ∧
      b'.white_double_add = b.white_double_add ∧ b'.black_double_add = b.black_double_add ∧
      b'.cards_count = b.cards_count ∧ b'.day_night_cycle = b.day_night_cycle ∧
      b'.last_move_at = b.last_move_at ∧ b'.board_size = b.board_size := by
  have hnodupf := wf_values_fid_nodup b hWf
  have hnodupc := wf_values_coord_nodup b hWf
  have hrange := wf_values_range b hWf
  have hfm : (initPiecesLoop emptyGrid [] [] (Dict.values b.fid_map)).2.1 = b.fid_map := by
    rw [initLoop_fm (Dict.values b.fid_map) emptyGrid [] [] (fun p hp => rfl) hnodupf,
      List.nil_append, wf_rebuild_fid b hWf]
  have hcm : (initPiecesLoop emptyGrid [] [] (Dict.values b.fid_map)).2.2 =
      (Dict.values b.fid_map).map fun p => (((p.row, p.col) : Int × Int), p) := by
    rw [initLoop_cm (Dict.values b.fid_map) emptyGrid [] [] (fun p hp => rfl) hnodupc,
      List.nil_append]
  have hpoint : ∀ k, Dict.get
      ((Dict.values b.fid_map).map fun p => (((p.row, p.col) : Int × Int), p)) k =
      Dict.get b.coord_map k := by
    intro k
    obtain ⟨x, y⟩ := k
    cases hg : Dict.get b.coord_map (x, y) with
    | some q =>
      have hqf := hWf.coord_fid _ _ _ hg
      have hqmem : q ∈ Dict.values b.fid_map :=
        List.mem_map_of_mem Prod.snd (Dict.mem_of_get _ _ _ hqf)
      obtain ⟨h1, h2, -⟩ := hWf.coord_pos _ _ _ hg
      have hget : Dict.get
          ((Dict.values b.fid_map).map fun p => (((p.row, p.col) : Int × Int), p))
          ((q.row, q.col) : Int × Int) = some q :=
        Dict.get_map_key (Dict.values b.fid_map)
          (fun p => ((p.row, p.col) : Int × Int)) q hnodupc hqmem
      rw [h1, h2] at hget
      rw [hget]
    | none =>
      cases hg2 : Dict.get
          ((Dict.values b.fid_map).map fun p => (((p.row, p.col) : Int × Int), p)) (x, y) with
      | none => rfl
      | some q =>
        obtain ⟨hqmem, hkey⟩ := Dict.get_map_key_elim _ _ _ _ hg2
        have hqget : Dict.get b.fid_map q.figure_id = some q := wf_values_get b hWf q hqmem
        have hqc := hWf.fid_coord _ _ hqget
        have hkey2 : ((q.row, q.col) : Int × Int) = (x, y) := hkey
        rw [hkey2, hg] at hqc
        exact Option.noConfusion hqc
  have hof : BoardState.ofInitialData (SerializedBoard.toInitialData b.to_json_serializable) =
      some { board_size := 8, current_player := b.current_player, white_hand := b.white_hand,
             black_hand := b.black_hand, white_double_add := b.white_double_add,
             black_double_add := b.black_double_add, game_log := b.game_log,
             moves_log := b.moves_log, cards_count := b.cards_count,
             game_status := b.game_status, day_night_cycle := b.day_night_cycle,
             turn_number := b.turn_number, players_white := b.players_white,
             players_black := b.players_black, last_move_at := b.last_move_at,
             board := (initPiecesLoop emptyGrid [] [] (Dict.values b.fid_map)).1,
             fid_map := (initPiecesLoop emptyGrid [] [] (Dict.values b.fid_map)).2.1,
             coord_map := (initPiecesLoop emptyGrid [] [] (Dict.values b.fid_map)).2.2 } := by
    rw [BoardState.ofInitialData,
      show GameStatus.ofValue
          (SerializedBoard.toInitialData b.to_json_serializable).game_status =
        some b.game_status from GameStatus.ofValue_value b.game_status]
    rfl
  refine ⟨_, hof, ?_, ?_, ?_, rfl, rfl, rfl, rfl, rfl, rfl, rfl, rfl, rfl, rfl, rfl, rfl,
    rfl, rfl, hWf.size.symm⟩
  · intro x y hx hy
    show gridGet (initPiecesLoop emptyGrid [] [] (Dict.values b.fid_map)).1 x y = _
    rw [initLoop_grid (Dict.values b.fid_map) emptyGrid [] [] wellShaped_emptyGrid
      hnodupc hrange x y hx hy, hWf.grid_coord x y hx hy, ← hpoint ((x : Int), (y : Int))]
    cases hg : Dict.get
        ((Dict.values b.fid_map).map fun p => (((p.row, p.col) : Int × Int), p))
        ((x : Int), (y : Int)) with
    | some q => simp only
    | none => simp only [gridGet_emptyGrid]
  · exact hfm
  · intro k
    show Dict.get (initPiecesLoop emptyGrid [] [] (Dict.values b.fid_map)).2.2 k = _
    rw [hcm]
    exact hpoint k

theorem c5_witness :
    ∃ b', BoardState.ofInitialData
        (SerializedBoard.toInitialData testBoard.to_json_serializable) = some b' ∧
      (∀ x y : Nat, x < 8 → y < 8 → gridGet b'.board x y = gridGet testBoard.board x y) ∧
      b'.fid_map = testBoard.fid_map ∧
      (∀ k, Dict.get b'.coord_map k = Dict.get testBoard.coord_map k) ∧
      b'.game_log = testBoard.game_log ∧ b'.moves_log = testBoard.moves_log ∧
      b'.game_status = testBoard.game_status ∧
      b'.current_player = testBoard.current_player ∧
      b'.turn_number = testBoard.turn_number ∧
      b'.players_white = testBoard.players_white ∧
      b'.players_black = testBoard.players_black ∧
      b'.white_hand = testBoard.white_hand ∧ b'.black_hand = testBoard.black_hand ∧
      b'.white_double_add = testBoard.white_double_add ∧
      b'.black_double_add = testBoard.black_double_add ∧
      b'.cards_count = testBoard.cards_count ∧
      b'.day_night_cycle = testBoard.day_night_cycle ∧
      b'.last_move_at = testBoard.last_move_at ∧
      b'.board_size = testBoard.board_size :=
  c5_serialization_roundtrip testBoard (WfB_implies_Wf testBoard (by decide))

/-- C6: joining a room whose black binding is set fails with AlreadyFull
and changes nothing (the exception is raised before any mutation or store
write); joining with the id already bound to white fails with
DuplicatePlayer, also changing nothing; otherwise join binds black (in the
room record and in the embedded board's players dict), flips the status to
in-progress, stamps updated_at and persists the updated record. -/
theorem c6_join_room (store : RoomStore) (room_id player2_id : String) (now : Int)
    (room : GameRoomInfo) (hget : Dict.get store (roomKey room_id) = some room) :
    (room.player2_id ≠ none →
      GameManager.join_room store room_id player2_id now = (JoinResult.alreadyFull, store)) ∧
    (room.player2_id = none → room.player1_id = some player2_id →
      GameManager.join_room store room_id player2_id now =
        (JoinResult.duplicatePlayer, store)) ∧
    (room.player2_id = none → room.player1_id ≠ some player2_id →
      GameManager.join_room store room_id player2_id now =
        (JoinResult.joined
          { room with
            player2_id := some player2_id
            status := GameStatus.in_progress
            updated_at := now
            board_state := { room.board_state with players_black := some player2_id } },
         Dict.setA store (roomKey room.id)
          { room with
            player2_id := some player2_id
            status := GameStatus.in_progress
            updated_at := now
            board_state := { room.board_state with players_black := some player2_id } })) := by
  refine ⟨?_, ?_, ?_⟩
  · intro h
    simp only [GameManager.join_room, hget, if_pos h]
  · intro h1 h2
    simp only [GameManager.join_room, hget]
    rw [if_neg (by rw [not_not]; exact h1), if_pos h2]
  · intro h1 h2
    simp only [GameManager.join_room, hget]
    rw [if_neg (by rw [not_not]; exact h1), if_neg h2]

theorem c6_witness :
    GameManager.join_room [("room:r1", roomFull)] "r1" "pC" 9 =
      (JoinResult.alreadyFull, [("room:r1", roomFull)]) :=
  (c6_join_room [("room:r1", roomFull)] "r1" "pC" 9 roomFull (by decide)).1 (by decide)

/-- C7: move_piece never reads game_status: changing game_status to any
value (in particular a terminal one — resigned, finished, checkmate,
stalemate, draw) commutes with move_piece, and a request passing the six
checks is still applied on such a state exactly as in an in-progress game:
the piece lands on the target, current_player flips and turn_number is
incremented. -/
theorem c7_terminal_status_still_moves (b : BoardState) (figure_id : String)
    (new_row new_col : Int) (pid : String) (now : Int) (s : GameStatus)
    (hsize : b.board_size = 8) :
    (BoardState.move_piece { b with game_status := s } figure_id new_row new_col pid now =
      { b.move_piece figure_id new_row new_col pid now with game_status := s }) ∧
    (firstValidationError b figure_id new_row new_col pid = none →
      ∀ piece, Dict.get b.fid_map figure_id = some piece →
        (BoardState.move_piece { b with game_status := s } figure_id new_row new_col pid
            now).turn_number = b.turn_number + 1 ∧
        (BoardState.move_piece { b with game_status := s } figure_id new_row new_col pid
            now).current_player = (if b.current_player = "white" then "black" else "white") ∧
        (∃ p', Dict.get (BoardState.move_piece { b with game_status := s } figure_id new_row
              new_col pid now).coord_map (new_row, new_col) = some p' ∧
          p'.figure_id = piece.figure_id ∧ p'.row = new_row ∧ p'.col = new_col)) := by
  have hcomm : BoardState.move_piece { b with game_status := s } figure_id new_row new_col
      pid now = { b.move_piece figure_id new_row new_col pid now with game_status := s } := by
    cases hfve : firstValidationError b figure_id new_row new_col pid with
    | some e =>
      have h1 : BoardState.move_piece { b with game_status := s } figure_id new_row new_col
          pid now = { { b with game_status := s } with
            game_log := { b with game_status := s }.game_log ++ [e] } :=
        move_reject_eq { b with game_status := s } figure_id new_row new_col pid now e
          hsize hfve
      rw [h1, move_reject_eq b figure_id new_row new_col pid now e hsize hfve]
    | none =>
      obtain ⟨piece, color, hfid, hcol, h1, h2, hr0, hr8, hc0, hc8, hns⟩ :=
        validation_none_elim b figure_id new_row new_col pid hfve
      cases htgt : Dict.get b.coord_map (new_row, new_col) with
      | none =>
        rw [move_success_nocap_eq { b with game_status := s } figure_id new_row new_col pid
            now piece color hsize hfid hcol h1 h2 ⟨hr0, hr8, hc0, hc8⟩ htgt,
          move_success_nocap_eq b figure_id new_row new_col pid now piece color hsize hfid
            hcol h1 h2 ⟨hr0, hr8, hc0, hc8⟩ htgt]
        rfl
      | some target =>
        have hne : target.color ≠ piece.color := hns target htgt
        rw [move_success_cap_eq { b with game_status := s } figure_id new_row new_col pid
            now piece target color hsize hfid hcol h1 h2 ⟨hr0, hr8, hc0, hc8⟩ htgt hne,
          move_success_cap_eq b figure_id new_row new_col pid now piece target color hsize
            hfid hcol h1 h2 ⟨hr0, hr8, hc0, hc8⟩ htgt hne]
        rfl
  refine ⟨hcomm, ?_⟩
  intro hok piece hfid
  obtain ⟨piece0, color, hfid0, hcol, h1, h2, hr0, hr8, hc0, hc8, hns⟩ :=
    validation_none_elim b figure_id new_row new_col pid hok
  have hpe : piece0 = piece := by
    rw [hfid] at hfid0
    exact (Option.some.inj hfid0).symm
  subst hpe
  rw [hcomm]
  cases htgt : Dict.get b.coord_map (new_row, new_col) with
  | none =>
    rw [move_success_nocap_eq b figure_id new_row new_col pid now piece0 color hsize hfid
      hcol h1 h2 ⟨hr0, hr8, hc0, hc8⟩ htgt]
    refine ⟨rfl, rfl, ⟨{ piece0 with
      row := new_row
      col := new_col
      is_first_move := false
      walk_count := piece0.walk_count + 1 }, ?_, rfl, rfl, rfl⟩⟩
    show Dict.get (Dict.setA (Dict.erase b.coord_map (piece0.row, piece0.col))
      (new_row, new_col) _) (new_row, new_col) = _
    rw [Dict.get_setA_self]
  | some target =>
    have hne : target.color ≠ piece0.color := hns target htgt
    rw [move_success_cap_eq b figure_id new_row new_col pid now piece0 target color hsize
      hfid hcol h1 h2 ⟨hr0, hr8, hc0, hc8⟩ htgt hne]
    refine ⟨rfl, rfl, ⟨{ piece0 with
      row := new_row
      col := new_col
      is_first_move := false
      walk_count := piece0.walk_count + 1 }, ?_, rfl, rfl, rfl⟩⟩
    show Dict.get (Dict.setA (Dict.erase (Dict.erase b.coord_map (target.row, target.col))
      (piece0.row, piece0.col)) (new_row, new_col) _) (new_row, new_col) = _
    rw [Dict.get_setA_self]

theorem c7_witness :
    (BoardState.move_piece { testBoard with game_status := GameStatus.resigned } "w1" 4 0
        "p1" 3).turn_number = testBoard.turn_number + 1 ∧
    (BoardState.move_piece { testBoard with game_status := GameStatus.resigned } "w1" 4 0
        "p1" 3).current_player =
      (if testBoard.current_player = "white" then "black" else "white") ∧
    (∃ p', Dict.get (BoardState.move_piece { testBoard with
          game_status := GameStatus.resigned } "w1" 4 0 "p1" 3).coord_map (4, 0) = some p' ∧
      p'.figure_id = wRook.figure_id ∧ p'.row = 4 ∧ p'.col = 0) :=
  (c7_terminal_status_still_moves testBoard "w1" 4 0 "p1" 3 GameStatus.resigned
    (by decide)).2 (by decide) wRook (by decide)

/-- C8 counterexample: creating a room and having a second player join
yields a room whose status is in_progress while the embedded board's
game_status is still waiting — join_room sets room.status but never
touches board_state.game_status, so the room status does not mirror the
embedded coarse status immediately after the second join. -/
theorem c8_counterexample :
    ((GameManager.create_room [] "Alpha" "pA" "r1" initialPiecesConcrete 0).bind fun rc =>
      match GameManager.join_room rc.2 "r1" "pB" 1 with
      | (JoinResult.joined room2, _) => some (room2.status, room2.board_state.game_status)
      | _ => none) = some (GameStatus.in_progress, GameStatus.waiting) ∧
    GameStatus.in_progress ≠ GameStatus.waiting := by
  constructor
  · rfl
  · decide

/-- C8 amended: the room status mirrors the embedded board status after
create_room (both waiting) and after surrender_room (both resigned), but a
successful join sets the room status to in-progress while leaving the
embedded board's game_status exactly as it was (still waiting for a
freshly created room), and replacing the board state leaves the room
status untouched — so the mirroring invariant does not hold after the
second join. -/
theorem c8_amended_status_mirroring :
    (∀ store room_name p1 rid pieces now room store',
      GameManager.create_room store room_name p1 rid pieces now = some (room, store') →
      room.status = GameStatus.waiting ∧
      room.board_state.game_status = GameStatus.waiting) ∧
    (∀ store rid pid now room' store',
      GameManager.surrender_room store rid pid now = (SurrenderResult.done room', store') →
      room'.status = GameStatus.resigned ∧
      room'.board_state.game_status = GameStatus.resigned) ∧
    (∀ store rid p2 now room' store',
      GameManager.join_room store rid p2 now = (JoinResult.joined room', store') →
      room'.status = GameStatus.in_progress ∧
      ∃ room, Dict.get store (roomKey rid) = some room ∧
        room'.board_state.game_status = room.board_state.game_status) ∧
    (∀ store rid bs now room' store',
      GameManager.update_room_state store rid bs now = (some room', store') →
      ∃ room, Dict.get store (roomKey rid) = some room ∧ room'.status = room.status ∧
        room'.board_state = bs) := by
  refine ⟨?_, ?_, ?_, ?_⟩
  · intro store room_name p1 rid pieces now room store' h
    rw [GameManager.create_room] at h
    cases hbs : BoardState.ofInitialData (initial_game_state pieces p1) with
    | none => rw [hbs] at h; exact absurd h (by simp)
    | some bs =>
      rw [hbs] at h
      simp only [Option.map_some] at h
      have hbstatus : bs.game_status = GameStatus.waiting := by
        rw [BoardState.ofInitialData] at hbs
        have hv : GameStatus.ofValue (initial_game_state pieces p1).game_status =
            some GameStatus.waiting := rfl
        rw [hv] at hbs
        simp only at hbs
        obtain rfl := Option.some.inj hbs
        rfl
      constructor
      · exact (congrArg (fun x => x.1.status) (Option.some.inj h)).symm
      · exact ((congrArg (fun x => x.1.board_state.game_status)
          (Option.some.inj h)).symm).trans hbstatus
  · intro store rid pid now room' store' h
    rw [GameManager.surrender_room] at h
    cases hget : Dict.get store (roomKey rid) with
    | none =>
      rw [hget] at h
      obtain h1 := congrArg Prod.fst h
      exact absurd h1 (by simp)
    | some room =>
      rw [hget] at h
      simp only at h
      by_cases hp : pid ≠ optStr room.player1_id ∧ pid ≠ optStr room.player2_id
      · rw [if_pos hp] at h
        obtain h1 := congrArg Prod.fst h
        exact absurd h1 (by simp)
      · rw [if_neg hp] at h
        obtain h1 := congrArg Prod.fst h
        simp only at h1
        obtain rfl := SurrenderResult.done.inj h1
        exact ⟨rfl, rfl⟩
  · intro store rid p2 now room' store' h
    rw [GameManager.join_room] at h
    cases hget : Dict.get store (roomKey rid) with
    | none =>
      rw [hget] at h
      obtain h1 := congrArg Prod.fst h
      exact absurd h1 (by simp)
    | some room =>
      rw [hget] at h
      simp only at h
      by_cases hfull : room.player2_id ≠ none
      · rw [if_pos hfull] at h
        obtain h1 := congrArg Prod.fst h
        exact absurd h1 (by simp)
      · rw [if_neg hfull] at h
        by_cases hdup : room.player1_id = some p2
        · rw [if_pos hdup] at h
          obtain h1 := congrArg Prod.fst h
          exact absurd h1 (by simp)
        · rw [if_neg hdup] at h
          obtain h1 := congrArg Prod.fst h
          simp only at h1
          obtain rfl := JoinResult.joined.inj h1
          exact ⟨rfl, room, rfl, rfl⟩
  · intro store rid bs now room' store' h
    rw [GameManager.update_room_state] at h
    cases hget : Dict.get store (roomKey rid) with
    | none =>
      rw [hget] at h
      obtain h1 := congrArg Prod.fst h
      exact absurd h1 (by simp)
    | some room =>
      rw [hget] at h
      simp only at h
      obtain h1 := congrArg Prod.fst h
      simp only at h1
      obtain rfl := Option.some.inj h1
      exact ⟨room, rfl, rfl, rfl⟩

theorem c8_witness :
    (GameManager.join_room [("room:r2",
        { id := "r2", name := "Beta", player1_id := some "pA", player2_id := none,
          status := GameStatus.waiting, board_state := testBoard,
          created_at := 0, updated_at := 0 })] "r2" "pB" 4).1 =
      JoinResult.joined
        { id := "r2", name := "Beta", player1_id := some "pA", player2_id := some "pB",
          status := GameStatus.in_progress,
          board_state := { testBoard with players_black := some "pB" },
          created_at := 0, updated_at := 4 } ∧
    GameStatus.in_progress = GameStatus.in_progress ∧
    testBoard.game_status = { testBoard with players_black := some "pB" }.game_status := by
  have h := c8_amended_status_mirroring.2.2.1 [("room:r2",
      { id := "r2", name := "Beta", player1_id := some "pA", player2_id := none,
        status := GameStatus.waiting, board_state := testBoard,
        created_at := 0, updated_at := 0 })] "r2" "pB" 4
      { id := "r2", name := "Beta", player1_id := some "pA", player2_id := some "pB",
        status := GameStatus.in_progress,
        board_state := { testBoard with players_black := some "pB" },
        created_at := 0, updated_at := 4 }
      (Dict.setA [("room:r2",
        { id := "r2", name := "Beta", player1_id := some "pA", player2_id := none,
          status := GameStatus.waiting, board_state := testBoard,
          created_at := 0, updated_at := 0 })] "room:r2"
        { id := "r2", name := "Beta", player1_id := some "pA", player2_id := some "pB",
          status := GameStatus.in_progress,
          board_state := { testBoard with players_black := some "pB" },
          created_at := 0, updated_at := 4 }) (by decide)
  exact ⟨by decide, h.1 ▸ rfl, rfl⟩

theorem sessionStep_binding (isUUID : String → Bool) (now : Int) (st : SessionState)
    (f : Frame) :
    (sessionStep isUUID now st f).1.binding =
      match wfMovePid isUUID f with
      | some p => some p
      | none => st.binding := by
  cases f with
  | move fid r c pidStr =>
    cases fid with
    | none => rfl
    | some fidv =>
      cases r with
      | none => rfl
      | some rv =>
        cases c with
        | none => rfl
        | some cv =>
          cases pidStr with
          | none => rfl
          | some pv =>
            rw [sessionStep, wfMovePid]
            by_cases h1 : fidv = "" ∨ pv = ""
            · rw [if_pos h1, if_pos h1]
            · rw [if_neg h1, if_neg h1]
              by_cases h2 : isUUID pv
              · rw [if_neg (not_not_intro h2), if_pos h2]
                have hr : (match (some pv : Option String) with
                    | some p => some p
                    | none => st.binding) = some pv := rfl
                rw [hr]
                split
                · rfl
                · split <;> rfl
              · rw [if_pos h2, if_neg h2]
  | chat_message m =>
    cases m with
    | none => rfl
    | some mv =>
      have hr : wfMovePid isUUID (Frame.chat_message (some mv)) = none := rfl
      rw [sessionStep, hr]
      split <;> rfl
  | unknown => rfl

theorem sessionRun_binding (isUUID : String → Bool) (now : Int) (st : SessionState)
    (frames : List Frame) (h : ∀ f ∈ frames, wfMovePid isUUID f = none) :
    (sessionRun isUUID now st frames).1.binding = st.binding := by
  induction frames generalizing st with
  | nil => rfl
  | cons f rest ih =>
    show (sessionRun isUUID now (sessionStep isUUID now st f).1 rest).1.binding = st.binding
    rw [ih _ (fun g hg => h g (List.mem_cons_of_mem _ hg)), sessionStep_binding,
      h f (List.mem_cons_self _ _)]

theorem sessionStep_chat (isUUID : String → Bool) (now : Int) (st : SessionState)
    (m : String) (hm : ¬ m = "") :
    (sessionStep isUUID now st (Frame.chat_message (some m))).2 =
      [OutMsg.chatPublished
        (match st.binding with | some p => p | none => "Anonymous") m] := by
  rw [sessionStep, if_neg hm]

/-- C9: the sender of a relayed chat frame depends on the connection's move
history: processed before any well-formed move frame on the connection it
is published with sender "Anonymous", and processed after a well-formed
move frame (whatever the board or the store did with that move, including
rejecting it) with any number of further non-well-formed frames in
between, it is published with that move frame's player_id. -/
theorem c9_chat_sender_from_move_history (isUUID : String → Bool) (now : Int)
    (st : SessionState) (frames frames2 : List Frame) (m : String) (hm : ¬ m = "") :
    (st.binding = none → (∀ f ∈ frames, wfMovePid isUUID f = none) →
      (sessionStep isUUID now (sessionRun isUUID now st frames).1
        (Frame.chat_message (some m))).2 = [OutMsg.chatPublished "Anonymous" m]) ∧
    (∀ mf p, wfMovePid isUUID mf = some p → (∀ f ∈ frames2, wfMovePid isUUID f = none) →
      (sessionStep isUUID now
        (sessionRun isUUID now (sessionStep isUUID now st mf).1 frames2).1
        (Frame.chat_message (some m))).2 = [OutMsg.chatPublished p m]) := by
  constructor
  · intro hb hnone
    rw [sessionStep_chat _ _ _ _ hm, sessionRun_binding _ _ _ _ hnone, hb]
  · intro mf p hmf hnone
    rw [sessionStep_chat _ _ _ _ hm, sessionRun_binding _ _ _ _ hnone,
      sessionStep_binding, hmf]

theorem c9_witness :
    (sessionStep (fun _ => true) 0
      (sessionRun (fun _ => true) 0
        ((sessionStep (fun _ => true) 0
          { binding := none, store := [("room:r1", roomFull)], room_id := "r1" }
          (Frame.move (some "nope") (some 0) (some 0) (some "px"))).1) []).1
      (Frame.chat_message (some "hi"))).2 = [OutMsg.chatPublished "px" "hi"] :=
  (c9_chat_sender_from_move_history (fun _ => true) 0
      { binding := none, store := [("room:r1", roomFull)], room_id := "r1" } [] [] "hi"
      (by decide)).2
    (Frame.move (some "nope") (some 0) (some 0) (some "px")) "px" (by decide)
    (fun f hf => absurd hf (List.not_mem_nil f))

/-- C10: connection-registry removal is not idempotent.  disconnect on an
unregistered room id is a graceful no-op, but on a registered room whose
set does not contain the websocket it raises KeyError (set.remove); and a
broadcast during which every send fails leaves the room mapped to an empty
set without deleting the entry, so a subsequent disconnect for that room
raises KeyError instead of acting as a no-op. -/
theorem c10_disconnect_keyerror (reg : Registry) (room_id ws : String)
    (conns : List String) (sendFails : String → Bool) :
    (Dict.get reg room_id = some conns → ws ∉ conns →
      WebSocketManager.disconnect reg ws room_id = Except.error "KeyError") ∧
    (Dict.get reg room_id = none →
      WebSocketManager.disconnect reg ws room_id = Except.ok reg) ∧
    (Dict.get reg room_id = some conns → conns ≠ [] →
      (∀ c ∈ conns, sendFails c = true) →
      Dict.get (WebSocketManager.broadcast reg room_id sendFails) room_id = some []) ∧
    (Dict.get reg room_id = some conns → conns ≠ [] →
      (∀ c ∈ conns, sendFails c = true) →
      WebSocketManager.disconnect (WebSocketManager.broadcast reg room_id sendFails) ws
        room_id = Except.error "KeyError") := by
  have hfil : (∀ c ∈ conns, sendFails c = true) →
      conns.filter (fun c => ¬ sendFails c) = [] := by
    intro hall
    rw [List.filter_eq_nil]
    intro a ha
    simp only [decide_eq_true_eq, Decidable.not_not]
    exact hall a ha
  have hbro : Dict.get reg room_id = some conns → (∀ c ∈ conns, sendFails c = true) →
      Dict.get (WebSocketManager.broadcast reg room_id sendFails) room_id = some [] := by
    intro hget hall
    rw [WebSocketManager.broadcast]
    simp only [hget]
    rw [hfil hall, Dict.get_setA_self]
  refine ⟨?_, ?_, ?_, ?_⟩
  · intro hget hmem
    rw [WebSocketManager.disconnect]
    simp only [hget]
    rw [if_neg hmem]
  · intro hget
    rw [WebSocketManager.disconnect]
    simp only [hget]
  · intro hget hne hall
    exact hbro hget hall
  · intro hget hne hall
    rw [WebSocketManager.disconnect]
    simp only [hbro hget hall]
    rw [if_neg (List.not_mem_nil ws)]

theorem c10_witness :
    WebSocketManager.disconnect
      (WebSocketManager.broadcast [("game1", ["wsA"])] "game1" (fun _ => true)) "wsA"
      "game1" = Except.error "KeyError" :=
  (c10_disconnect_keyerror [("game1", ["wsA"])] "game1" "wsA" ["wsA"]
    (fun _ => true)).2.2.2 (by decide) (by decide) (fun c hc => rfl)
